import Mathlib

/-!
Verification of the domain-crawl engine of the `seo-app` repository.

The Python sources under `src/src/core` (`domain_crawler.py`, `util_crawler.py`,
`utils.py`, `fetcher.py`) and `src/backend/app/service_crawler.py` are embedded
shallowly: pure helpers become Lean functions, the crawl loop becomes explicit
state passing with a fuel argument (the Python `while` loop has no fuel; a
sufficiency lemma shows the chosen fuel always reaches the loop's real exit
condition), and Python exceptions become `Except`.

External collaborators are modelled as oracles supplied to the functions:
the HTTP client (`CrawlWorld.resp`, where `none` means the client raised a
network error after exhausting its retries), the HTML extractor plus the
filesystem round-trip of the extracted JSON (`CrawlWorld.extract`, keyed by
the extracted-JSON path), and `tldextract`-based `host_key` (parameter `hk`).
-/

/-! ## Python string primitives (from `str` semantics used by the sources) -/

/-- `listIsPre pre l` : `pre` is a prefix of `l` (Python `str.startswith`). -/
def listIsPre : List Char → List Char → Bool
  | [], _ => true
  | _ :: _, [] => false
  | a :: as, b :: bs => a == b && listIsPre as bs

/-- `listHasSub sub l` : `sub` occurs as a contiguous run inside `l`
(Python `sub in s`). -/
def listHasSub (sub : List Char) : List Char → Bool
  | [] => listIsPre sub []
  | s@(_ :: rest) => listIsPre sub s || listHasSub sub rest

/-- Python `sub in s` on strings. -/
def pyIn (sub s : String) : Bool := listHasSub sub.data s.data

/-- Python `s.startswith(pre)` on strings. -/
def pyStartsWith (pre s : String) : Bool := listIsPre pre.data s.data

/-- Python `s[n:]` (by code point). -/
def pyDropStr (n : Nat) (s : String) : String := ⟨s.data.drop n⟩

/-- The six ASCII whitespace characters stripped by Python `str.strip()`. -/
def isPySpace (c : Char) : Bool :=
  c == ' ' || c == '\t' || c == '\n' || c == '\r' ||
  c == Char.ofNat 11 || c == Char.ofNat 12

/-- Python `s.strip()`. -/
def pyStrip (s : String) : String :=
  ⟨((s.data.dropWhile isPySpace).reverse.dropWhile isPySpace).reverse⟩

/-- Python `s.lower()` (ASCII case folding; the sources only compare ASCII
tokens such as `"noindex"`, `"http"`). -/
def pyLower (s : String) : String := ⟨s.data.map Char.toLower⟩

/-- Split a character list at every occurrence of `c`
(Python `s.split(c)` for a one-character separator). -/
def splitOnChar (c : Char) : List Char → List (List Char)
  | [] => [[]]
  | a :: as =>
    let r := splitOnChar c as
    if a == c then [] :: r
    else
      match r with
      | [] => [[a]]
      | h :: t => (a :: h) :: t

/-- Python `s.split("/", maxsplit)`. -/
def pySplitSlashMax (s : String) (maxsplit : Nat) : List String :=
  let parts := (splitOnChar '/' s.data).map (fun l => (⟨l⟩ : String))
  if parts.length ≤ maxsplit + 1 then parts
  else parts.take maxsplit ++ [String.intercalate "/" (parts.drop maxsplit)]

/-- First-seen-order deduplication of a string list (the `seen`-set loops of
`_extract_links_and_index_info` and `utils.dedup`). -/
def pyDedup : List String → List String :=
  go []
where
  go (acc : List String) : List String → List String
    | [] => acc.reverse
    | u :: rest => if u ∈ acc then go acc rest else go (u :: acc) rest

/-- Python `a or b` for `a : Optional[int]`: falls back when `a` is `None`
or `0` (both falsy).  Used for `domain.max_pages or cfg.limits.max_pages_per_domain`. -/
def pyOrInt (a : Option Int) (b : Int) : Int :=
  match a with
  | some v => if v ≠ 0 then v else b
  | none => b

/-! ## `utils.is_http` (via `urllib.parse.urlparse` scheme extraction) -/

/-- A valid URL scheme: a letter followed by letters, digits, `+`, `-`, `.`
(`urllib.parse` accepts exactly these before the first `:`). -/
def isSchemeStr (s : String) : Bool :=
  match s.data with
  | [] => false
  | c :: rest => c.isAlpha && rest.all (fun d => d.isAlphanum || d == '+' || d == '-' || d == '.')

/-- `utils.is_http`: the URL's parsed scheme is `http` or `https`. -/
def is_http (u : String) : Bool :=
  match (splitOnChar ':' u.data).map (fun l => (⟨l⟩ : String)) with
  | pre :: _ :: _ =>
    isSchemeStr pre && (pyLower pre == "http" || pyLower pre == "https")
  | _ => false

/-! ## `util_crawler.DomainInput` and the scope filter -/

/-- `util_crawler.DomainInput` (the normalized crawl target). -/
structure DomainInput where
  domain : String
  slug : String
  start_urls : List String
  max_pages : Option Int := none
  allowed_paths : List String := []
  blocked_paths : List String := []
deriving Repr, DecidableEq

/-- The path extraction inside `is_url_allowed_for_domain`:
`"/" + url.split("/", 3)[3] if "/" in url[8:] else "/"`.
For an `http(s)` URL the split always has a fourth component; on other strings
Python would raise `IndexError` where this model yields `"/"` (such strings are
filtered out by `is_http` before reaching the filter inside the crawler). -/
def urlPath (url : String) : String :=
  if pyIn "/" (pyDropStr 8 url) then "/" ++ (pySplitSlashMax url 3).getD 3 ""
  else "/"

/-- `util_crawler.is_url_allowed_for_domain`.  `hk` abstracts
`utils.host_key` (built on the external `tldextract` library); the dataclass
property `domain.host_key` is `hk domain.domain`. -/
def is_url_allowed_for_domain (hk : String → String) (url : String) (domain : DomainInput) : Bool :=
  if hk url ≠ hk domain.domain then false
  else
    let path := urlPath url
    if domain.blocked_paths.any (fun bp => bp ≠ "" && pyIn bp path) then false
    else if domain.allowed_paths ≠ [] then
      domain.allowed_paths.any (fun ap => ap ≠ "" && pyIn ap path)
    else true

/-! ## `domain_crawler` constants and data model -/

/-- `domain_crawler.MAX_INTERNAL_LINKS_PER_PAGE`. -/
def MAX_INTERNAL_LINKS_PER_PAGE : Nat := 30

/-- `domain_crawler.MAX_EXTERNAL_LINKS_PER_PAGE`. -/
def MAX_EXTERNAL_LINKS_PER_PAGE : Nat := 10

/-- One `{url, status}` link record (`status` is `int|None` in Python). -/
abbrev LinkRec := String × Option Int

/-- `domain_crawler.PageCrawlResult`.  `duration_ms`, `size_bytes` and
`encoding_guess` carry fetch metadata and play no role in the control flow. -/
structure PageCrawlResult where
  url : String
  final_url : String
  status : Option Int
  duration_ms : Int
  size_bytes : Int
  encoding_guess : Option String
  ok : Bool
  error : Option String := none
  extracted_path : Option String := none
  meta_robots : Option String := none
  index_status : Option String := none
  internal_links : List LinkRec := []
  external_links : List LinkRec := []
deriving Repr, DecidableEq

/-- `domain_crawler.DomainCrawlReport` (the wall-clock `started_at` /
`finished_at` timestamps are external and omitted; `max_pages_effective` is
the `config["max_pages_effective"]` entry written by `crawl_domain`). -/
structure DomainCrawlReport where
  domain : String
  slug : String
  max_pages_effective : Int
  pages : List PageCrawlResult
deriving Repr, DecidableEq

/-! ## The external world (fetch client, extractor, filesystem) -/

/-- The response object produced by the external HTTP client for one URL
(`httpx.Response` / `requests.Response` as read by `fetcher.fetch`):
`status_code`, `str(r.url)` (the final URL after redirects), the body bytes,
and the already-resolved encoding guess (`r.encoding or detect_encoding`,
both external). -/
structure HttpResp where
  status_code : Option Int
  final_url : String
  content : List Nat
  duration_ms : Int := 0
  encoding_guess : Option String := none
deriving Repr, DecidableEq

/-- The parsed extracted-JSON document as read back by
`_extract_links_and_index_info`: the `page.meta_robots` value (`none` for
absent or non-string) and the `links.internal_links` / `links.external_links`
item lists, each item reduced to its `url` field (`none` for a non-dict item
or a non-string `url`). -/
structure ExtractData where
  meta_robots : Option String := none
  internal_items : List (Option String) := []
  external_items : List (Option String) := []
deriving Repr, DecidableEq

/-- Oracle for the external collaborators of one crawl:
`resp url` is the HTTP client's response (`none` = the client raised a
network error after exhausting retries, which `fetcher.fetch_httpx`
re-raises); `extract path` is the parsed JSON at the extracted-JSON `path`
written by `html_bytes_to_json` (`none` = `load_json` raised). -/
structure CrawlWorld where
  resp : String → Option HttpResp
  extract : String → Option ExtractData

/-- `fetcher.fetch`'s success flag: `ok = 200 <= (status or 0) < 400`. -/
def fetchOk (status : Option Int) : Bool :=
  decide (200 ≤ status.getD 0 ∧ status.getD 0 < 400)

/-- Zero padding of `f"{index:04d}"`. -/
def pad4 (n : Nat) : String :=
  let s := toString n
  ⟨List.replicate (4 - s.length) '0'⟩ ++ s

/-- `domain_crawler._page_save_path` relative to the cache root. -/
def page_save_path (slug : String) (index : Nat) (status : Option Int) : String :=
  slug ++ "/" ++ pad4 index ++ "_" ++
    (match status with | some s => toString s | none => "unknown") ++ ".json"

/-- `domain_crawler.crawl_single_url`: fetch one URL and build its
`PageCrawlResult`.  A raising fetch (network error after retries) is not
caught anywhere in the crawler, so it surfaces as `Except.error`.
`final_url = meta.get("final_url") or url`. -/
def crawl_single_url (world : CrawlWorld) (url : String) (dom : DomainInput)
    (index : Nat) : Except String PageCrawlResult :=
  match world.resp url with
  | none => Except.error url
  | some r =>
    let status := r.status_code
    let final_url := if r.final_url ≠ "" then r.final_url else url
    if ¬ (fetchOk status) ∨ r.content = [] then
      Except.ok
        { url := url, final_url := final_url, status := status,
          duration_ms := r.duration_ms, size_bytes := r.content.length,
          encoding_guess := r.encoding_guess, ok := false,
          error := some "fetch_failed", extracted_path := none }
    else
      Except.ok
        { url := url, final_url := final_url, status := status,
          duration_ms := r.duration_ms, size_bytes := r.content.length,
          encoding_guess := r.encoding_guess, ok := true,
          error := none, extracted_path := some (page_save_path dom.slug index status) }

/-! ## `_extract_links_and_index_info` -/

/-- The dictionary returned by `_extract_links_and_index_info`. -/
structure ExtractInfo where
  internal_urls_for_bfs : List String
  internal_links_urls : List String
  external_links_urls : List String
  meta_robots : Option String
  index_status : Option String
deriving Repr, DecidableEq

/-- The `index_status` derivation (`domain_crawler.py` lines 186–193):
non-blank string containing `"noindex"` case-insensitively gives
`"noindex"`, any other non-blank string gives `"index"`, everything else
(absent, non-string, blank) gives `None`. -/
def deriveIndexStatus (robots : Option String) : Option String :=
  match robots with
  | none => none
  | some r =>
    if pyStrip r ≠ "" then
      if pyIn "noindex" (pyLower r) then some "noindex" else some "index"
    else none

/-- `domain_crawler._extract_links_and_index_info` on the parsed document
(`none` = `load_json` raised, giving the all-empty dictionary). -/
def extract_links_and_index_info (hk : String → String) (data : Option ExtractData)
    (dom : DomainInput) : ExtractInfo :=
  match data with
  | none =>
    { internal_urls_for_bfs := [], internal_links_urls := [],
      external_links_urls := [], meta_robots := none, index_status := none }
  | some d =>
    let tmp_internal := (d.internal_items.filterMap id).filter
      (fun u => is_http u && is_url_allowed_for_domain hk u dom)
    let internal := pyDedup tmp_internal
    let tmp_external := (d.external_items.filterMap id).filter is_http
    let external := pyDedup tmp_external
    { internal_urls_for_bfs := internal.take MAX_INTERNAL_LINKS_PER_PAGE,
      internal_links_urls := internal.take MAX_INTERNAL_LINKS_PER_PAGE,
      external_links_urls := external.take MAX_EXTERNAL_LINKS_PER_PAGE,
      meta_robots := d.meta_robots,
      index_status := deriveIndexStatus d.meta_robots }

/-! ## Link-status probing (`_probe_link_status_single` / `_bulk`)

The shared cache `url -> status|None` is an association list whose lookup is
the first binding; `cacheSet` mirrors dictionary assignment.  `nFetch`
counts the underlying probe fetches actually issued, so "answered from the
cache without issuing a new fetch" is expressible.  The thread pool of the
bulk prober is modelled as the sequential execution of the submitted tasks
(one linearization; each task writes a distinct cache key, cf. spec §5). -/

/-- A Python dictionary with string keys, as an association list
(lookup = first binding; assignment = prepend). -/
abbrev StatusDict := List (String × Option Int)

/-- Dictionary assignment `d[k] = v`. -/
def dictSet (d : StatusDict) (k : String) (v : Option Int) : StatusDict :=
  (k, v) :: d

/-- `dict.setdefault(k, v)`. -/
def dictSetdefault (d : StatusDict) (k : String) (v : Option Int) : StatusDict :=
  match d.lookup k with
  | some _ => d
  | none => dictSet d k v

/-- `domain_crawler._probe_link_status_single`: answer from the cache, or
issue one probe fetch.  `Except.error` is the `httpx.RequestError` escaping
`fetch` (caught by the bulk prober around `future.result()`). -/
def probe_link_status_single (world : CrawlWorld) (u : String)
    (cache : StatusDict) (nFetch : Nat) :
    Except String (Option Int) × StatusDict × Nat :=
  match cache.lookup u with
  | some st => (Except.ok st, cache, nFetch)
  | none =>
    match world.resp u with
    | none => (Except.error u, cache, nFetch + 1)
    | some r => (Except.ok r.status_code, dictSet cache u r.status_code, nFetch + 1)

/-- First phase of `_probe_link_status_bulk`: fill `results` from the cache
and collect the `to_fetch` list. -/
def probeBulkFill (cache : StatusDict) : List String → StatusDict × List String
  | [] => ([], [])
  | u :: rest =>
    match cache.lookup u with
    | some st => (dictSet (probeBulkFill cache rest).1 u st, (probeBulkFill cache rest).2)
    | none => ((probeBulkFill cache rest).1, u :: (probeBulkFill cache rest).2)

/-- Second phase of `_probe_link_status_bulk`: run the submitted probe tasks;
a task that raised gets `results[u] = None` and `cache[u] = None`. -/
def probeBulkRun (world : CrawlWorld) :
    List String → StatusDict → StatusDict → Nat → StatusDict × StatusDict × Nat
  | [], res, cache, n => (res, cache, n)
  | u :: rest, res, cache, n =>
    match probe_link_status_single world u cache n with
    | (Except.ok st, cache2, n2) => probeBulkRun world rest (dictSet res u st) cache2 n2
    | (Except.error _, cache2, n2) =>
      probeBulkRun world rest (dictSet res u none) (dictSet cache2 u none) n2

/-- `domain_crawler._probe_link_status_bulk`: returns `(results, cache, nFetch)`. -/
def probe_link_status_bulk (world : CrawlWorld) (urls : List String)
    (cache : StatusDict) (nFetch : Nat) : StatusDict × StatusDict × Nat :=
  probeBulkRun world (probeBulkFill cache urls).2 (probeBulkFill cache urls).1 cache nFetch

/-! ## The BFS frontier (`crawl_domain`) -/

/-- `util_crawler.CrawlLimits` (defaults from the dataclass). -/
structure CrawlLimits where
  max_pages_per_domain : Int := 20
  delay_ms_between_requests : Int := 0
deriving Repr, DecidableEq

/-- `util_crawler.CrawlConfig`.  The `http` settings only parameterize the
external fetch client and are absorbed into the `CrawlWorld` oracle. -/
structure CrawlConfig where
  limits : CrawlLimits := {}
deriving Repr, DecidableEq

/-- The mutable state of `crawl_domain`'s `while` loop. -/
structure CrawlState where
  pages : List PageCrawlResult
  queue : List String
  seen : List String
  cache : StatusDict
  nFetch : Nat
deriving Repr, DecidableEq

/-- The BFS enqueue loop (`domain_crawler.py` lines 400–404):
```
for nu in info["internal_urls_for_bfs"]:
    if nu not in seen and nu not in queue:
        queue.append(nu)
        if len(pages) + len(queue) >= max_pages:
            break
```
`pagesLen` is `len(pages)` after the current page was appended. -/
def enqueueBFS (pagesLen : Nat) (maxPages : Int) (seen : List String) :
    List String → List String → List String
  | queue, [] => queue
  | queue, nu :: rest =>
    if nu ∈ seen ∨ nu ∈ queue then enqueueBFS pagesLen maxPages seen queue rest
    else
      let q2 := queue ++ [nu]
      if maxPages ≤ (pagesLen : Int) + q2.length then q2
      else enqueueBFS pagesLen maxPages seen q2 rest

/-- The body of one crawl iteration after `crawl_single_url` returned `res`
(`domain_crawler.py` lines 366–404): append the page, seed the link-status
cache with the page's own status (`setdefault` on `final_url` then `url`),
and if the page is `ok` with a truthy `extracted_path`, extract links, probe
their statuses, attach the link records and enqueue the BFS URLs.
`rest` is the queue after the `pop(0)`, `seen2` the seen-set already holding
the current URL.  The optional inter-request `time.sleep` is external. -/
def crawlHandlePage (world : CrawlWorld) (hk : String → String) (dom : DomainInput)
    (maxPages : Int) (pages0 : List PageCrawlResult) (rest : List String)
    (seen2 : List String) (cache0 : StatusDict) (n0 : Nat)
    (res : PageCrawlResult) : CrawlState :=
  let cache1 :=
    dictSetdefault
      (if res.final_url ≠ "" then dictSetdefault cache0 res.final_url res.status else cache0)
      res.url res.status
  match res.ok, res.extracted_path with
  | true, some p =>
    if p ≠ "" then
      let info := extract_links_and_index_info hk (world.extract p) dom
      let pr1 := probe_link_status_bulk world info.internal_links_urls cache1 n0
      let pr2 := probe_link_status_bulk world info.external_links_urls pr1.2.1 pr1.2.2
      let res2 :=
        { res with
          meta_robots := info.meta_robots,
          index_status := info.index_status,
          internal_links := info.internal_links_urls.map (fun u => (u, (pr1.1.lookup u).join)),
          external_links := info.external_links_urls.map (fun u => (u, (pr2.1.lookup u).join)) }
      { pages := pages0 ++ [res2],
        queue := enqueueBFS (pages0.length + 1) maxPages seen2 rest info.internal_urls_for_bfs,
        seen := seen2, cache := pr2.2.1, nFetch := pr2.2.2 }
    else
      { pages := pages0 ++ [res], queue := rest, seen := seen2, cache := cache1, nFetch := n0 }
  | _, _ =>
    { pages := pages0 ++ [res], queue := rest, seen := seen2, cache := cache1, nFetch := n0 }

/-- The `while queue and len(pages) < max_pages` loop of `crawl_domain`,
with a fuel argument standing in for the (terminating) unbounded iteration;
running out of fuel returns the state reached so far, and
`crawlLoop_exit` below shows the fuel used by `crawl_domain` never runs out
before the loop's own exit condition holds. -/
def crawlLoop (world : CrawlWorld) (hk : String → String) (dom : DomainInput)
    (maxPages : Int) : Nat → CrawlState → Except String CrawlState
  | 0, st => Except.ok st
  | fuel + 1, st =>
    match st.queue with
    | [] => Except.ok st
    | url :: rest =>
      if (st.pages.length : Int) < maxPages then
        if url ∈ st.seen then
          crawlLoop world hk dom maxPages fuel
            { pages := st.pages, queue := rest, seen := st.seen,
              cache := st.cache, nFetch := st.nFetch }
        else
          match crawl_single_url world url dom st.pages.length with
          | Except.error e => Except.error e
          | Except.ok res =>
            crawlLoop world hk dom maxPages fuel
              (crawlHandlePage world hk dom maxPages st.pages rest
                (url :: st.seen) st.cache st.nFetch res)
      else Except.ok st

/-- The seeding loop of `crawl_domain`: enqueue each allowed start URL not
already queued (`seen` is empty at this point). -/
def initQueueGo (hk : String → String) (dom : DomainInput)
    (queue : List String) : List String → List String
  | [] => queue
  | u :: rest =>
    if is_url_allowed_for_domain hk u dom ∧ u ∉ queue then
      initQueueGo hk dom (queue ++ [u]) rest
    else initQueueGo hk dom queue rest

/-- The initial frontier built from `domain.start_urls`. -/
def initQueue (hk : String → String) (dom : DomainInput) : List String :=
  initQueueGo hk dom [] dom.start_urls

/-- Fuel provably sufficient for `crawlLoop` (each iteration pops one URL;
a crawled page enqueues at most `MAX_INTERNAL_LINKS_PER_PAGE` URLs and
consumes one unit of the remaining page budget). -/
def crawlFuel (maxPages : Int) (q0 : List String) : Nat :=
  q0.length + MAX_INTERNAL_LINKS_PER_PAGE * maxPages.toNat + 1

/-- `domain_crawler.crawl_domain`.  The effective budget is
`domain.max_pages or cfg.limits.max_pages_per_domain`; the report is also
saved to disk (external, not modelled). -/
def crawl_domain (world : CrawlWorld) (hk : String → String) (dom : DomainInput)
    (cfg : CrawlConfig) : Except String DomainCrawlReport :=
  let maxPages := pyOrInt dom.max_pages cfg.limits.max_pages_per_domain
  let q0 := initQueue hk dom
  match crawlLoop world hk dom maxPages (crawlFuel maxPages q0)
      { pages := [], queue := q0, seen := [], cache := [], nFetch := 0 } with
  | Except.error e => Except.error e
  | Except.ok st =>
    Except.ok
      { domain := dom.domain, slug := dom.slug,
        max_pages_effective := maxPages, pages := st.pages }

/-! ## The job runner (`service_crawler.run_crawl_job_sync`)

The module defines `run_crawl_job_sync` twice; the later definition
(lines 334–392) shadows the earlier one and is the effective code.  Its
effect is a sequence of whole-document writes of the status file; the model
returns the final written document.  `load_crawl_config` and
`_load_domains_from_request` resolve configuration and are passed in. -/

/-- The base-field page dictionary built by the job runner
(lines 357–367; note it drops the link/robots fields). -/
structure PageOut where
  url : String
  final_url : String
  status : Option Int
  duration_ms : Int
  size_bytes : Int
  encoding_guess : Option String
  ok : Bool
  error : Option String
  extracted_path : Option String
deriving Repr, DecidableEq

/-- Projection of a crawled page onto the job runner's page dictionary. -/
def mkPageOut (p : PageCrawlResult) : PageOut :=
  { url := p.url, final_url := p.final_url, status := p.status,
    duration_ms := p.duration_ms, size_bytes := p.size_bytes,
    encoding_guess := p.encoding_guess, ok := p.ok, error := p.error,
    extracted_path := p.extracted_path }

/-- One entry of `reports_out` (lines 369–375; the wall-clock
`duration_ms` is external and omitted). -/
structure ReportOut where
  domain : String
  slug : String
  report_path : String
  pages : List PageOut
deriving Repr, DecidableEq

/-- The report dictionary appended after one target completes. -/
def mkReportOut (dom : DomainInput) (rep : DomainCrawlReport) : ReportOut :=
  { domain := rep.domain, slug := dom.slug,
    report_path := dom.slug ++ "_report.json",
    pages := rep.pages.map mkPageOut }

/-- One whole-document write of the persisted job-status file. -/
structure CrawlJobStatus where
  job_id : String
  status : String
  message : String
  reports : List ReportOut
deriving Repr, DecidableEq

/-- The `for domain in domains` loop inside the `try`: crawl each target and
accumulate its report; an exception carries out the reports accumulated so
far. -/
def runTargets (world : CrawlWorld) (hk : String → String) (cfg : CrawlConfig) :
    List DomainInput → List ReportOut →
    Except (String × List ReportOut) (List ReportOut)
  | [], acc => Except.ok acc
  | d :: rest, acc =>
    match crawl_domain world hk d cfg with
    | Except.error e => Except.error (e, acc)
    | Except.ok rep => runTargets world hk cfg rest (acc ++ [mkReportOut d rep])

/-- `service_crawler.run_crawl_job_sync` (effective copy, lines 334–392),
modelled as the final status document it writes: `done` with all reports on
success, `failed` with the partial reports and `f"Error: {e}"` when an
exception escapes the per-target loop. -/
def run_crawl_job_sync (world : CrawlWorld) (hk : String → String)
    (cfg : CrawlConfig) (job_id : String) (domains : List DomainInput) :
    CrawlJobStatus :=
  match runTargets world hk cfg domains [] with
  | Except.ok reps =>
    { job_id := job_id, status := "done",
      message := "Completed crawl for " ++ toString domains.length ++ " domain(s)",
      reports := reps }
  | Except.error (e, reps) =>
    { job_id := job_id, status := "failed",
      message := "Error: " ++ e, reports := reps }

/-! ## The status reader (`service_crawler.get_crawl_status`)

The persisted file is modelled as a `FileState`; its JSON payload as a
`PyVal`.  The pydantic-v1 validation performed by `CrawlStatus` /
`DomainReport` / `PageResult` / `LinkItem` (schemas_crawler.py) is embedded
for the value shapes a JSON file can contain. -/

/-- A parsed JSON value (Python object shapes reachable from `json.load`). -/
inductive PyVal where
  | pyNull
  | pyBool (b : Bool)
  | pyInt (n : Int)
  | pyStr (s : String)
  | pyList (xs : List PyVal)
  | pyDict (kvs : List (String × PyVal))

/-- Python truthiness of a JSON value. -/
def pyTruthy : PyVal → Bool
  | PyVal.pyNull => false
  | PyVal.pyBool b => b
  | PyVal.pyInt n => n ≠ 0
  | PyVal.pyStr s => s ≠ ""
  | PyVal.pyList xs => ¬ xs.isEmpty
  | PyVal.pyDict kvs => ¬ kvs.isEmpty

/-- The persisted status file: missing, unreadable as JSON, or parsed. -/
inductive FileState where
  | missing
  | unparseable
  | parsed (j : PyVal)

/-- `service_crawler._read_status_raw`: `{}` for a missing file or a
`json.load` failure, the parsed document otherwise. -/
def read_status_raw : FileState → PyVal
  | FileState.missing => PyVal.pyDict []
  | FileState.unparseable => PyVal.pyDict []
  | FileState.parsed j => j

/-- `raw.get(key, default)`: dictionary lookup, `AttributeError` on a
non-dictionary. -/
def pyGetD (v : PyVal) (key : String) (dflt : PyVal) : Except String PyVal :=
  match v with
  | PyVal.pyDict kvs => Except.ok ((kvs.lookup key).getD dflt)
  | _ => Except.error "AttributeError"

/-- `str(v)` (for lists/dictionaries the exact `repr` text is irrelevant to
the caller and abbreviated). -/
def pyToStr : PyVal → String
  | PyVal.pyNull => "None"
  | PyVal.pyBool b => if b then "True" else "False"
  | PyVal.pyInt n => toString n
  | PyVal.pyStr s => s
  | PyVal.pyList _ => "[...]"
  | PyVal.pyDict _ => "{...}"

/-- `int(v)`: integers pass, booleans coerce, strings parse (stripped,
optional sign), everything else raises. -/
def pyIntCast : PyVal → Except String Int
  | PyVal.pyInt n => Except.ok n
  | PyVal.pyBool b => Except.ok (if b then 1 else 0)
  | PyVal.pyStr s =>
    match (pyStrip s).toInt? with
    | some n => Except.ok n
    | none => Except.error "ValueError"
  | _ => Except.error "TypeError"

/-- Iterating a JSON value (`for r in reports_raw`): lists yield elements,
strings yield characters, dictionaries yield keys, the rest raise. -/
def pyIter : PyVal → Except String (List PyVal)
  | PyVal.pyList xs => Except.ok xs
  | PyVal.pyStr s => Except.ok (s.data.map (fun c => PyVal.pyStr ⟨[c]⟩))
  | PyVal.pyDict kvs => Except.ok (kvs.map (fun kv => PyVal.pyStr kv.1))
  | _ => Except.error "TypeError"

/-- pydantic-v1 `str` field: strings pass, numbers and booleans coerce. -/
def vStr : PyVal → Except String String
  | PyVal.pyStr s => Except.ok s
  | PyVal.pyInt n => Except.ok (toString n)
  | PyVal.pyBool b => Except.ok (if b then "True" else "False")
  | _ => Except.error "ValidationError"

/-- pydantic-v1 `Optional[str]` field. -/
def vOptStr : PyVal → Except String (Option String)
  | PyVal.pyNull => Except.ok none
  | v => (vStr v).map some

/-- pydantic-v1 `int` field: integers and booleans pass, numeric strings
coerce. -/
def vInt : PyVal → Except String Int
  | PyVal.pyInt n => Except.ok n
  | PyVal.pyBool b => Except.ok (if b then 1 else 0)
  | PyVal.pyStr s =>
    match (pyStrip s).toInt? with
    | some n => Except.ok n
    | none => Except.error "ValidationError"
  | _ => Except.error "ValidationError"

/-- pydantic-v1 `Optional[int]` field. -/
def vOptInt : PyVal → Except String (Option Int)
  | PyVal.pyNull => Except.ok none
  | v => (vInt v).map some

/-- pydantic-v1 `bool` field. -/
def vBool : PyVal → Except String Bool
  | PyVal.pyBool b => Except.ok b
  | PyVal.pyInt n =>
    if n = 0 then Except.ok false
    else if n = 1 then Except.ok true
    else Except.error "ValidationError"
  | PyVal.pyStr s =>
    let l := pyLower s
    if l ∈ ["true", "1", "yes", "on"] then Except.ok true
    else if l ∈ ["false", "0", "no", "off"] then Except.ok false
    else Except.error "ValidationError"
  | _ => Except.error "ValidationError"

/-- A required pydantic field: missing key is a `ValidationError`. -/
def fieldReq (kvs : List (String × PyVal)) (k : String)
    (v : PyVal → Except String α) : Except String α :=
  match kvs.lookup k with
  | none => Except.error "ValidationError"
  | some x => v x

/-- An optional pydantic field with a default. -/
def fieldOpt (kvs : List (String × PyVal)) (k : String)
    (v : PyVal → Except String α) (dflt : α) : Except String α :=
  match kvs.lookup k with
  | none => Except.ok dflt
  | some x => v x

/-- `schemas_crawler.LinkItem` validation. -/
def vLinkItem : PyVal → Except String LinkRec
  | PyVal.pyDict kvs => do
    let url ← fieldReq kvs "url" vStr
    let status ← fieldOpt kvs "status" vOptInt none
    return (url, status)
  | _ => Except.error "ValidationError"

/-- `List[LinkItem]` validation. -/
def vLinkList : PyVal → Except String (List LinkRec)
  | PyVal.pyList xs => xs.mapM vLinkItem
  | _ => Except.error "ValidationError"

/-- `schemas_crawler.PageResult(**p)`: `p` must be a dictionary, the fields
`url`, `final_url`, `duration_ms`, `size_bytes`, `ok` are required, the
rest default (`Optional` fields to `None`, link lists to `[]`). -/
def vPageResult : PyVal → Except String PageCrawlResult
  | PyVal.pyDict kvs => do
    let url ← fieldReq kvs "url" vStr
    let final_url ← fieldReq kvs "final_url" vStr
    let status ← fieldOpt kvs "status" vOptInt none
    let duration_ms ← fieldReq kvs "duration_ms" vInt
    let size_bytes ← fieldReq kvs "size_bytes" vInt
    let encoding_guess ← fieldOpt kvs "encoding_guess" vOptStr none
    let ok ← fieldReq kvs "ok" vBool
    let error ← fieldOpt kvs "error" vOptStr none
    let extracted_path ← fieldOpt kvs "extracted_path" vOptStr none
    let meta_robots ← fieldOpt kvs "meta_robots" vOptStr none
    let index_status ← fieldOpt kvs "index_status" vOptStr none
    let internal_links ← fieldOpt kvs "internal_links" vLinkList []
    let external_links ← fieldOpt kvs "external_links" vLinkList []
    return { url := url, final_url := final_url, status := status,
             duration_ms := duration_ms, size_bytes := size_bytes,
             encoding_guess := encoding_guess, ok := ok, error := error,
             extracted_path := extracted_path, meta_robots := meta_robots,
             index_status := index_status, internal_links := internal_links,
             external_links := external_links }
  | _ => Except.error "TypeError"

/-- A validated `schemas_crawler.DomainReport`. -/
structure DomainReportM where
  domain : String
  slug : Option String
  duration_ms : Int
  report_path : String
  pages : List PageCrawlResult
deriving Repr, DecidableEq

/-- The `CrawlStatus` pydantic model returned by `get_crawl_status`. -/
structure CrawlStatusM where
  job_id : String
  status : String
  message : Option String
  reports : Option (List DomainReportM)
deriving Repr, DecidableEq

/-- The body of the `try:` block of `get_crawl_status` (lines 405–424):
build the report models from `raw` and assemble the `CrawlStatus`;
any raised error is the `Except.error` case. -/
def buildStatus (raw : PyVal) : Except String CrawlStatusM := do
  let reportsVal ← pyGetD raw "reports" PyVal.pyNull
  let reportsRaw := if pyTruthy reportsVal then reportsVal else PyVal.pyList []
  let items ← pyIter reportsRaw
  let reports_models ← items.mapM (fun r => do
    let pagesVal ← pyGetD r "pages" (PyVal.pyList [])
    let pagesItems ← pyIter pagesVal
    let pages_models ← pagesItems.mapM vPageResult
    let domain ← vStr (← pyGetD r "domain" (PyVal.pyStr ""))
    let slug ← vOptStr (← pyGetD r "slug" (PyVal.pyStr ""))
    let durRaw ← pyGetD r "duration_ms" PyVal.pyNull
    let dur ← pyIntCast (if pyTruthy durRaw then durRaw else PyVal.pyInt 0)
    let report_path ← vStr (← pyGetD r "report_path" (PyVal.pyStr ""))
    return ({ domain := domain, slug := slug, duration_ms := dur,
              report_path := report_path, pages := pages_models } : DomainReportM))
  let job_id ← pyGetD raw "job_id" (PyVal.pyStr "")
  let status ← pyGetD raw "status" (PyVal.pyStr "")
  let messageVal ← pyGetD raw "message" PyVal.pyNull
  let message ← vOptStr messageVal
  return { job_id := pyToStr job_id, status := pyToStr status,
           message := message,
           reports := if reports_models.isEmpty then none else some reports_models }

/-- The `CrawlStatus` returned for an idle (absent/falsy) status file. -/
def idleStatus : CrawlStatusM :=
  { job_id := "none", status := "idle",
    message := some "No crawl job has been started yet", reports := none }

/-- The `CrawlStatus` returned when parsing the status file raised. -/
def invalidStatus : CrawlStatusM :=
  { job_id := "invalid", status := "error",
    message := some "Failed to parse crawl status file", reports := none }

/-- `service_crawler.get_crawl_status` (effective copy, lines 395–432). -/
def get_crawl_status (fs : FileState) : CrawlStatusM :=
  let raw := read_status_raw fs
  if ¬ pyTruthy raw then idleStatus
  else
    match buildStatus raw with
    | Except.ok s => s
    | Except.error _ => invalidStatus

/-! ## Concrete instances used by scenario conjuncts, counterexamples and witnesses -/

/-- A concrete `host_key`: the whole site lives on one registrable domain. -/
def hk0 : String → String := fun _ => "e.com"

/-- A concrete crawl target with a budget of 3 pages. -/
def domC : DomainInput :=
  { domain := "https://e.com", slug := "e", start_urls := ["https://e.com/"],
    max_pages := some 3 }

/-- A concrete site: the seed links to `/a` and `/b`, and `/a` links to `/d`
(extracted-JSON paths follow `_page_save_path`: slug `e`, index, status). -/
def wC : CrawlWorld := {
  resp := fun u => some { status_code := some 200, final_url := u, content := [1] },
  extract := fun p =>
    if p = "e/0000_200.json" then
      some { internal_items := [some "https://e.com/a", some "https://e.com/b"] }
    else if p = "e/0001_200.json" then
      some { internal_items := [some "https://e.com/d"] }
    else some {} }

/-- A site whose seed page carries `noindex` meta robots and one internal link. -/
def wNoidx : CrawlWorld := {
  resp := fun u => some { status_code := some 200, final_url := u, content := [1] },
  extract := fun p =>
    if p = "e/0000_200.json" then
      some { meta_robots := some "noindex, nofollow",
             internal_items := [some "https://e.com/a"] }
    else some {} }

/-- A site where every fetch returns HTTP 500 with a body. -/
def w500 : CrawlWorld := {
  resp := fun u => some { status_code := some 500, final_url := u, content := [1] },
  extract := fun _ => none }

/-- A site where every fetch raises a network error after retries. -/
def wNet : CrawlWorld := { resp := fun _ => none, extract := fun _ => some {} }

/-- A site answering 204 with an empty body for every URL. -/
def w204 : CrawlWorld := {
  resp := fun u => some { status_code := some 204, final_url := u, content := [] },
  extract := fun _ => none }

/-- A site with two distinct probe targets. -/
def wProbe : CrawlWorld := {
  resp := fun u =>
    if u = "https://a/" then some { status_code := some 200, final_url := u, content := [1] }
    else some { status_code := some 404, final_url := u, content := [] },
  extract := fun _ => none }

/-- A status file that parses as JSON but does not validate as a `CrawlJob`:
its only page entry `{}` lacks the required `PageResult` fields. -/
def badStatusJson : PyVal :=
  PyVal.pyDict [("job_id", PyVal.pyStr "j"), ("status", PyVal.pyStr "done"),
    ("reports", PyVal.pyList [PyVal.pyDict [("pages", PyVal.pyList [PyVal.pyDict []])]])]

/-! ## Helper lemmas about the embedded crawler -/

theorem crawl_single_url_ok_url (world : CrawlWorld) (url : String) (dom : DomainInput)
    (index : Nat) (res : PageCrawlResult)
    (h : crawl_single_url world url dom index = Except.ok res) : res.url = url := by
  unfold crawl_single_url at h
  cases hr : world.resp url with
  | none => rw [hr] at h; exact absurd h (by simp)
  | some r =>
    rw [hr] at h
    by_cases hc : ¬ (fetchOk r.status_code) ∨ r.content = [] <;>
      simp only [hc, if_pos, if_neg, not_false_iff, Except.ok.injEq] at h <;>
      simp [← h]

theorem crawlHandlePage_pages_length (world : CrawlWorld) (hk : String → String)
    (dom : DomainInput) (mp : Int) (pages0 : List PageCrawlResult) (rest : List String)
    (seen2 : List String) (cache0 : StatusDict) (n0 : Nat) (res : PageCrawlResult) :
    (crawlHandlePage world hk dom mp pages0 rest seen2 cache0 n0 res).pages.length
      = pages0.length + 1 := by
  unfold crawlHandlePage
  split <;> split <;> (try split) <;> simp

theorem crawlHandlePage_pages_map_url (world : CrawlWorld) (hk : String → String)
    (dom : DomainInput) (mp : Int) (pages0 : List PageCrawlResult) (rest : List String)
    (seen2 : List String) (cache0 : StatusDict) (n0 : Nat) (res : PageCrawlResult) :
    (crawlHandlePage world hk dom mp pages0 rest seen2 cache0 n0 res).pages.map
        (fun p => p.url)
      = pages0.map (fun p => p.url) ++ [res.url] := by
  unfold crawlHandlePage
  split <;> split <;> (try split) <;> simp

theorem crawlHandlePage_seen (world : CrawlWorld) (hk : String → String)
    (dom : DomainInput) (mp : Int) (pages0 : List PageCrawlResult) (rest : List String)
    (seen2 : List String) (cache0 : StatusDict) (n0 : Nat) (res : PageCrawlResult) :
    (crawlHandlePage world hk dom mp pages0 rest seen2 cache0 n0 res).seen = seen2 := by
  unfold crawlHandlePage
  split <;> split <;> (try split) <;> simp

theorem enqueueBFS_mem (pl : Nat) (mp : Int) (seen : List String) :
    ∀ nus queue x, x ∈ enqueueBFS pl mp seen queue nus → x ∈ queue ∨ x ∈ nus := by
  intro nus
  induction nus with
  | nil => intro queue x hx; exact Or.inl hx
  | cons nu rest ih =>
    intro queue x hx
    unfold enqueueBFS at hx
    by_cases hmem : nu ∈ seen ∨ nu ∈ queue
    · rw [if_pos hmem] at hx
      rcases ih queue x hx with h | h
      · exact Or.inl h
      · exact Or.inr (List.mem_cons_of_mem _ h)
    · rw [if_neg hmem] at hx
      by_cases hbud : mp ≤ (pl : Int) + (queue ++ [nu]).length
      · rw [if_pos hbud] at hx
        rcases List.mem_append.1 hx with h | h
        · exact Or.inl h
        · exact Or.inr (by simp [List.mem_singleton.1 h])
      · rw [if_neg hbud] at hx
        rcases ih (queue ++ [nu]) x hx with h | h
        · rcases List.mem_append.1 h with h' | h'
          · exact Or.inl h'
          · exact Or.inr (by simp [List.mem_singleton.1 h'])
        · exact Or.inr (List.mem_cons_of_mem _ h)

theorem enqueueBFS_length_le (pl : Nat) (mp : Int) (seen : List String) :
    ∀ nus queue, (enqueueBFS pl mp seen queue nus).length ≤ queue.length + nus.length := by
  intro nus
  induction nus with
  | nil => intro queue; simp [enqueueBFS]
  | cons nu rest ih =>
    intro queue
    unfold enqueueBFS
    by_cases hmem : nu ∈ seen ∨ nu ∈ queue
    · rw [if_pos hmem]
      calc (enqueueBFS pl mp seen queue rest).length ≤ queue.length + rest.length := ih queue
        _ ≤ queue.length + (nu :: rest).length := by simp
    · rw [if_neg hmem]
      by_cases hbud : mp ≤ (pl : Int) + (queue ++ [nu]).length
      · rw [if_pos hbud]; simp
      · rw [if_neg hbud]
        calc (enqueueBFS pl mp seen (queue ++ [nu]) rest).length
            ≤ (queue ++ [nu]).length + rest.length := ih _
          _ ≤ queue.length + (nu :: rest).length := by simp; omega

theorem pyDedup_go_mem (x : String) :
    ∀ l acc, x ∈ pyDedup.go acc l → x ∈ acc ∨ x ∈ l := by
  intro l
  induction l with
  | nil => intro acc hx; simp [pyDedup.go] at hx; exact Or.inl hx
  | cons u rest ih =>
    intro acc hx
    unfold pyDedup.go at hx
    by_cases hm : u ∈ acc
    · rw [if_pos hm] at hx
      rcases ih acc hx with h | h
      · exact Or.inl h
      · exact Or.inr (List.mem_cons_of_mem _ h)
    · rw [if_neg hm] at hx
      rcases ih (u :: acc) hx with h | h
      · rcases List.mem_cons.1 h with h' | h'
        · exact Or.inr (by simp [h'])
        · exact Or.inl h'
      · exact Or.inr (List.mem_cons_of_mem _ h)

theorem pyDedup_mem (x : String) (l : List String) (hx : x ∈ pyDedup l) : x ∈ l := by
  rcases pyDedup_go_mem x l [] hx with h | h
  · simp at h
  · exact h

theorem extract_info_bfs_allowed (hk : String → String) (data : Option ExtractData)
    (dom : DomainInput) (u : String)
    (hu : u ∈ (extract_links_and_index_info hk data dom).internal_urls_for_bfs) :
    is_url_allowed_for_domain hk u dom = true := by
  cases data with
  | none => simp [extract_links_and_index_info] at hu
  | some d =>
    simp only [extract_links_and_index_info] at hu
    have h1 := pyDedup_mem u _ (List.mem_of_mem_take hu)
    have h2 := (List.mem_filter.1 h1).2
    simp only [Bool.and_eq_true] at h2
    exact h2.2

theorem initQueueGo_mem (hk : String → String) (dom : DomainInput) (x : String) :
    ∀ l queue, x ∈ initQueueGo hk dom queue l → x ∈ queue ∨ x ∈ l := by
  intro l
  induction l with
  | nil => intro queue hx; exact Or.inl hx
  | cons u rest ih =>
    intro queue hx
    unfold initQueueGo at hx
    by_cases hc : is_url_allowed_for_domain hk u dom ∧ u ∉ queue
    · rw [if_pos hc] at hx
      rcases ih (queue ++ [u]) hx with h | h
      · rcases List.mem_append.1 h with h' | h'
        · exact Or.inl h'
        · exact Or.inr (by simp [List.mem_singleton.1 h'])
      · exact Or.inr (List.mem_cons_of_mem _ h)
    · rw [if_neg hc] at hx
      rcases ih queue hx with h | h
      · exact Or.inl h
      · exact Or.inr (List.mem_cons_of_mem _ h)

theorem initQueueGo_allowed (hk : String → String) (dom : DomainInput) (x : String) :
    ∀ l queue, (∀ y ∈ queue, is_url_allowed_for_domain hk y dom = true) →
      x ∈ initQueueGo hk dom queue l → is_url_allowed_for_domain hk x dom = true := by
  intro l
  induction l with
  | nil => intro queue hq hx; exact hq x hx
  | cons u rest ih =>
    intro queue hq hx
    unfold initQueueGo at hx
    by_cases hc : is_url_allowed_for_domain hk u dom ∧ u ∉ queue
    · rw [if_pos hc] at hx
      refine ih (queue ++ [u]) ?_ hx
      intro y hy
      rcases List.mem_append.1 hy with h' | h'
      · exact hq y h'
      · rw [List.mem_singleton.1 h']; exact hc.1
    · rw [if_neg hc] at hx
      exact ih queue hq hx

theorem initQueue_allowed (hk : String → String) (dom : DomainInput) (x : String)
    (hx : x ∈ initQueue hk dom) : is_url_allowed_for_domain hk x dom = true := by
  exact initQueueGo_allowed hk dom x dom.start_urls [] (by simp) hx

theorem extract_info_bfs_length (hk : String → String) (data : Option ExtractData)
    (dom : DomainInput) :
    (extract_links_and_index_info hk data dom).internal_urls_for_bfs.length
      ≤ MAX_INTERNAL_LINKS_PER_PAGE := by
  cases data with
  | none => simp [extract_links_and_index_info]
  | some d =>
    simp only [extract_links_and_index_info, List.length_take]
    exact min_le_left _ _

theorem crawlHandlePage_queue_length (world : CrawlWorld) (hk : String → String)
    (dom : DomainInput) (mp : Int) (pages0 : List PageCrawlResult) (rest : List String)
    (seen2 : List String) (cache0 : StatusDict) (n0 : Nat) (res : PageCrawlResult) :
    (crawlHandlePage world hk dom mp pages0 rest seen2 cache0 n0 res).queue.length
      ≤ rest.length + MAX_INTERNAL_LINKS_PER_PAGE := by
  unfold crawlHandlePage
  split <;> split <;> (try split) <;>
    first
    | exact le_trans (enqueueBFS_length_le _ _ _ _ _)
        (Nat.add_le_add_left (extract_info_bfs_length _ _ _) _)
    | simp

theorem crawlHandlePage_queue_mem (world : CrawlWorld) (hk : String → String)
    (dom : DomainInput) (mp : Int) (pages0 : List PageCrawlResult) (rest : List String)
    (seen2 : List String) (cache0 : StatusDict) (n0 : Nat) (res : PageCrawlResult)
    (x : String)
    (hx : x ∈ (crawlHandlePage world hk dom mp pages0 rest seen2 cache0 n0 res).queue) :
    x ∈ rest ∨ is_url_allowed_for_domain hk x dom = true := by
  unfold crawlHandlePage at hx
  revert hx
  split <;> split <;> (try split) <;> dsimp only <;> intro hx <;>
    first
    | exact Or.inl hx
    | (rcases enqueueBFS_mem _ _ _ _ _ _ hx with h' | h'
       exacts [Or.inl h', Or.inr (extract_info_bfs_allowed _ _ _ _ h')])

theorem crawlHandlePage_failed (world : CrawlWorld) (hk : String → String)
    (dom : DomainInput) (mp : Int) (pages0 : List PageCrawlResult) (rest : List String)
    (seen2 : List String) (cache0 : StatusDict) (n0 : Nat) (res : PageCrawlResult)
    (hres : res.ok = false) :
    (crawlHandlePage world hk dom mp pages0 rest seen2 cache0 n0 res).queue = rest ∧
    (crawlHandlePage world hk dom mp pages0 rest seen2 cache0 n0 res).pages
      = pages0 ++ [res] := by
  unfold crawlHandlePage
  split <;> simp [hres]

theorem crawlLoop_zero (world : CrawlWorld) (hk : String → String) (dom : DomainInput)
    (mp : Int) (st : CrawlState) : crawlLoop world hk dom mp 0 st = Except.ok st := rfl

theorem crawlLoop_succ (world : CrawlWorld) (hk : String → String) (dom : DomainInput)
    (mp : Int) (n : Nat) (st : CrawlState) :
    crawlLoop world hk dom mp (n + 1) st =
      match st.queue with
      | [] => Except.ok st
      | url :: rest =>
        if (st.pages.length : Int) < mp then
          if url ∈ st.seen then
            crawlLoop world hk dom mp n
              { pages := st.pages, queue := rest, seen := st.seen,
                cache := st.cache, nFetch := st.nFetch }
          else
            match crawl_single_url world url dom st.pages.length with
            | Except.error e => Except.error e
            | Except.ok res =>
              crawlLoop world hk dom mp n
                (crawlHandlePage world hk dom mp st.pages rest
                  (url :: st.seen) st.cache st.nFetch res)
        else Except.ok st := rfl

theorem crawlLoop_pages_le (world : CrawlWorld) (hk : String → String) (dom : DomainInput)
    (mp : Int) :
    ∀ fuel st st', (st.pages.length : Int) ≤ mp →
      crawlLoop world hk dom mp fuel st = Except.ok st' →
      (st'.pages.length : Int) ≤ mp := by
  intro fuel
  induction fuel with
  | zero =>
    intro st st' h hE
    rw [crawlLoop_zero] at hE
    cases hE
    exact h
  | succ n ih =>
    intro st st' h hE
    rw [crawlLoop_succ] at hE
    cases hq : st.queue with
    | nil => rw [hq] at hE; cases hE; exact h
    | cons url rest =>
      rw [hq] at hE
      dsimp only at hE
      by_cases hlt : (st.pages.length : Int) < mp
      · rw [if_pos hlt] at hE
        by_cases hseen : url ∈ st.seen
        · rw [if_pos hseen] at hE
          exact ih _ st' (by simpa using h) hE
        · rw [if_neg hseen] at hE
          cases hcr : crawl_single_url world url dom st.pages.length with
          | error e => rw [hcr] at hE; cases hE
          | ok res =>
            rw [hcr] at hE
            refine ih _ st' ?_ hE
            rw [crawlHandlePage_pages_length]
            push_cast
            omega
      · rw [if_neg hlt] at hE
        cases hE
        exact h

theorem crawlLoop_nodup (world : CrawlWorld) (hk : String → String) (dom : DomainInput)
    (mp : Int) :
    ∀ fuel st st',
      (st.pages.map (fun p => p.url)).Nodup →
      (∀ p ∈ st.pages, p.url ∈ st.seen) →
      crawlLoop world hk dom mp fuel st = Except.ok st' →
      (st'.pages.map (fun p => p.url)).Nodup := by
  intro fuel
  induction fuel with
  | zero =>
    intro st st' h1 h2 hE
    rw [crawlLoop_zero] at hE
    cases hE
    exact h1
  | succ n ih =>
    intro st st' h1 h2 hE
    rw [crawlLoop_succ] at hE
    cases hq : st.queue with
    | nil => rw [hq] at hE; cases hE; exact h1
    | cons url rest =>
      rw [hq] at hE
      dsimp only at hE
      by_cases hlt : (st.pages.length : Int) < mp
      · rw [if_pos hlt] at hE
        by_cases hseen : url ∈ st.seen
        · rw [if_pos hseen] at hE
          exact ih _ st' (by simpa using h1) (by simpa using h2) hE
        · rw [if_neg hseen] at hE
          cases hcr : crawl_single_url world url dom st.pages.length with
          | error e => rw [hcr] at hE; cases hE
          | ok res =>
            rw [hcr] at hE
            have hurl : res.url = url := crawl_single_url_ok_url world url dom _ res hcr
            refine ih _ st' ?_ ?_ hE
            · rw [crawlHandlePage_pages_map_url, hurl]
              rw [List.nodup_append]
              refine ⟨h1, List.nodup_singleton url, ?_⟩
              intro x hx hx'
              rcases List.mem_map.1 hx with ⟨p, hp, hpx⟩
              rw [List.mem_singleton.1 hx'] at hpx
              exact hseen (hpx ▸ h2 p hp)
            · intro p hp
              have : p.url ∈ (crawlHandlePage world hk dom mp st.pages rest
                  (url :: st.seen) st.cache st.nFetch res).pages.map (fun p => p.url) :=
                List.mem_map.2 ⟨p, hp, rfl⟩
              rw [crawlHandlePage_pages_map_url, hurl] at this
              rw [crawlHandlePage_seen]
              rcases List.mem_append.1 this with h | h
              · rcases List.mem_map.1 h with ⟨q, hq', hqx⟩
                exact List.mem_cons_of_mem _ (hqx ▸ h2 q hq')
              · rw [List.mem_singleton.1 h]
                exact List.mem_cons_self _ _
      · rw [if_neg hlt] at hE
        cases hE
        exact h1

theorem crawlLoop_allowed (world : CrawlWorld) (hk : String → String) (dom : DomainInput)
    (mp : Int) :
    ∀ fuel st st',
      (∀ u ∈ st.queue, is_url_allowed_for_domain hk u dom = true) →
      (∀ p ∈ st.pages, is_url_allowed_for_domain hk p.url dom = true) →
      crawlLoop world hk dom mp fuel st = Except.ok st' →
      ∀ p ∈ st'.pages, is_url_allowed_for_domain hk p.url dom = true := by
  intro fuel
  induction fuel with
  | zero =>
    intro st st' hqa hpa hE
    rw [crawlLoop_zero] at hE
    cases hE
    exact hpa
  | succ n ih =>
    intro st st' hqa hpa hE
    rw [crawlLoop_succ] at hE
    cases hq : st.queue with
    | nil => rw [hq] at hE; cases hE; exact hpa
    | cons url rest =>
      rw [hq] at hE
      dsimp only at hE
      have hrest : ∀ u ∈ rest, is_url_allowed_for_domain hk u dom = true :=
        fun u hu => hqa u (hq ▸ List.mem_cons_of_mem _ hu)
      by_cases hlt : (st.pages.length : Int) < mp
      · rw [if_pos hlt] at hE
        by_cases hseen : url ∈ st.seen
        · rw [if_pos hseen] at hE
          exact ih _ st' (by simpa using hrest) (by simpa using hpa) hE
        · rw [if_neg hseen] at hE
          cases hcr : crawl_single_url world url dom st.pages.length with
          | error e => rw [hcr] at hE; cases hE
          | ok res =>
            rw [hcr] at hE
            have hurl : res.url = url := crawl_single_url_ok_url world url dom _ res hcr
            have hu : is_url_allowed_for_domain hk url dom = true :=
              hqa url (hq ▸ List.mem_cons_self _ _)
            refine ih _ st' ?_ ?_ hE
            · intro u hu'
              rcases crawlHandlePage_queue_mem world hk dom mp st.pages rest
                  (url :: st.seen) st.cache st.nFetch res u hu' with h | h
              · exact hrest u h
              · exact h
            · intro p hp
              have : p.url ∈ (crawlHandlePage world hk dom mp st.pages rest
                  (url :: st.seen) st.cache st.nFetch res).pages.map (fun p => p.url) :=
                List.mem_map.2 ⟨p, hp, rfl⟩
              rw [crawlHandlePage_pages_map_url, hurl] at this
              rcases List.mem_append.1 this with h | h
              · rcases List.mem_map.1 h with ⟨q, hq', hqx⟩
                exact hqx ▸ hpa q hq'
              · rw [List.mem_singleton.1 h]
                exact hu
      · rw [if_neg hlt] at hE
        cases hE
        exact hpa

theorem crawlLoop_exit (world : CrawlWorld) (hk : String → String) (dom : DomainInput)
    (mp : Int) :
    ∀ fuel st st',
      st.queue.length + MAX_INTERNAL_LINKS_PER_PAGE * (mp - (st.pages.length : Int)).toNat < fuel →
      crawlLoop world hk dom mp fuel st = Except.ok st' →
      st'.queue = [] ∨ ¬ ((st'.pages.length : Int) < mp) := by
  intro fuel
  induction fuel with
  | zero => intro st st' hf hE; exact absurd hf (by omega)
  | succ n ih =>
    intro st st' hf hE
    rw [crawlLoop_succ] at hE
    cases hq : st.queue with
    | nil => rw [hq] at hE; cases hE; exact Or.inl hq
    | cons url rest =>
      rw [hq] at hE
      dsimp only at hE
      by_cases hlt : (st.pages.length : Int) < mp
      · rw [if_pos hlt] at hE
        by_cases hseen : url ∈ st.seen
        · rw [if_pos hseen] at hE
          refine ih _ st' ?_ hE
          have h1 : st.queue.length = rest.length + 1 := by rw [hq]; simp
          dsimp only
          omega
        · rw [if_neg hseen] at hE
          cases hcr : crawl_single_url world url dom st.pages.length with
          | error e => rw [hcr] at hE; cases hE
          | ok res =>
            rw [hcr] at hE
            refine ih _ st' ?_ hE
            have hql := crawlHandlePage_queue_length world hk dom mp st.pages rest
              (url :: st.seen) st.cache st.nFetch res
            have hpl := crawlHandlePage_pages_length world hk dom mp st.pages rest
              (url :: st.seen) st.cache st.nFetch res
            rw [hpl]
            have h1 : st.queue.length = rest.length + 1 := by rw [hq]; simp
            have h2 : ((st.pages.length + 1 : Nat) : Int) = (st.pages.length : Int) + 1 := by
              push_cast; ring
            rw [h2]
            simp only [MAX_INTERNAL_LINKS_PER_PAGE] at hf hql ⊢
            omega
      · rw [if_neg hlt] at hE
        cases hE
        exact Or.inr hlt

theorem crawlFuel_sufficient (mp : Int) (q0 : List String) :
    q0.length + MAX_INTERNAL_LINKS_PER_PAGE * (mp - ((0 : Nat) : Int)).toNat
      < crawlFuel mp q0 := by
  unfold crawlFuel
  have : (mp - ((0 : Nat) : Int)).toNat = mp.toNat := by omega
  rw [this]
  omega

/-! ## Lemmas about the link-status prober -/

theorem dictSet_lookup (c : StatusDict) (k : String) (w : Option Int) (v : String) :
    (dictSet c k w).lookup v = if v = k then some w else c.lookup v := by
  simp only [dictSet, List.lookup]
  by_cases h : v = k
  · simp [h]
  · simp [h, beq_false_of_ne h]

theorem probe_single_cached (world : CrawlWorld) (u : String) (cache : StatusDict)
    (n : Nat) (st : Option Int) (h : cache.lookup u = some st) :
    probe_link_status_single world u cache n = (Except.ok st, cache, n) := by
  simp [probe_link_status_single, h]

theorem probeBulkRun_cache_preserve (world : CrawlWorld) :
    ∀ tf res cache n v sv, cache.lookup v = some sv →
      ((probeBulkRun world tf res cache n).2.1).lookup v = some sv := by
  intro tf
  induction tf with
  | nil => intro res cache n v sv h; simpa [probeBulkRun] using h
  | cons u rest ih =>
    intro res cache n v sv h
    unfold probeBulkRun
    cases hcu : cache.lookup u with
    | some st =>
      rw [probe_single_cached world u cache n st hcu]
      try dsimp only
      exact ih _ _ _ v sv h
    | none =>
      have hvu : v ≠ u := fun hh => by rw [hh, hcu] at h; cases h
      cases hw : world.resp u with
      | none =>
        simp only [probe_link_status_single, hcu, hw]
        try dsimp only
        refine ih _ _ _ v sv ?_
        rw [dictSet_lookup]
        simp [hvu, h]
      | some r =>
        simp only [probe_link_status_single, hcu, hw]
        try dsimp only
        refine ih _ _ _ v sv ?_
        rw [dictSet_lookup]
        simp [hvu, h]

theorem probeBulkRun_res_preserve (world : CrawlWorld) :
    ∀ tf res cache n v, v ∉ tf →
      ((probeBulkRun world tf res cache n).1).lookup v = res.lookup v := by
  intro tf
  induction tf with
  | nil => intro res cache n v _; rfl
  | cons u rest ih =>
    intro res cache n v hv
    have hvu : v ≠ u := fun h => hv (h ▸ List.mem_cons_self u rest)
    have hvr : v ∉ rest := fun h => hv (List.mem_cons_of_mem _ h)
    unfold probeBulkRun
    cases hcu : cache.lookup u with
    | some st =>
      rw [probe_single_cached world u cache n st hcu]
      try dsimp only
      rw [ih _ _ _ v hvr, dictSet_lookup]
      simp [hvu]
    | none =>
      cases hw : world.resp u with
      | none =>
        simp only [probe_link_status_single, hcu, hw]
        try dsimp only
        rw [ih _ _ _ v hvr, dictSet_lookup]
        simp [hvu]
      | some r =>
        simp only [probe_link_status_single, hcu, hw]
        try dsimp only
        rw [ih _ _ _ v hvr, dictSet_lookup]
        simp [hvu]

theorem probeBulkRun_covers (world : CrawlWorld) :
    ∀ tf res cache n v, v ∈ tf →
      ∃ s, ((probeBulkRun world tf res cache n).2.1).lookup v = some s ∧
           ((probeBulkRun world tf res cache n).1).lookup v = some s := by
  intro tf
  induction tf with
  | nil => intro res cache n v hv; exact absurd hv (List.not_mem_nil v)
  | cons u rest ih =>
    intro res cache n v hv
    by_cases hvr : v ∈ rest
    · unfold probeBulkRun
      cases hcu : cache.lookup u with
      | some st =>
        rw [probe_single_cached world u cache n st hcu]
        try dsimp only
        exact ih _ _ _ v hvr
      | none =>
        cases hw : world.resp u with
        | none =>
          simp only [probe_link_status_single, hcu, hw]
          try dsimp only
          exact ih _ _ _ v hvr
        | some r =>
          simp only [probe_link_status_single, hcu, hw]
          try dsimp only
          exact ih _ _ _ v hvr
    · have hvu : v = u := by
        rcases List.mem_cons.1 hv with h | h
        · exact h
        · exact absurd h hvr
      subst hvu
      unfold probeBulkRun
      cases hcu : cache.lookup v with
      | some st =>
        rw [probe_single_cached world v cache n st hcu]
        try dsimp only
        refine ⟨st, probeBulkRun_cache_preserve world rest _ cache n v st hcu, ?_⟩
        rw [probeBulkRun_res_preserve world rest _ cache n v hvr, dictSet_lookup]
        simp
      | none =>
        cases hw : world.resp v with
        | none =>
          simp only [probe_link_status_single, hcu, hw]
          try dsimp only
          refine ⟨none, ?_, ?_⟩
          · exact probeBulkRun_cache_preserve world rest _ _ _ v none
              (by rw [dictSet_lookup]; simp)
          · rw [probeBulkRun_res_preserve world rest _ _ _ v hvr, dictSet_lookup]
            simp
        | some r =>
          simp only [probe_link_status_single, hcu, hw]
          try dsimp only
          refine ⟨r.status_code, ?_, ?_⟩
          · exact probeBulkRun_cache_preserve world rest _ _ _ v r.status_code
              (by rw [dictSet_lookup]; simp)
          · rw [probeBulkRun_res_preserve world rest _ _ _ v hvr, dictSet_lookup]
            simp

theorem probeBulkFill_tf (cache : StatusDict) :
    ∀ urls, (probeBulkFill cache urls).2
      = urls.filter (fun u => (cache.lookup u).isNone) := by
  intro urls
  induction urls with
  | nil => rfl
  | cons u rest ih =>
    unfold probeBulkFill
    cases hcu : cache.lookup u with
    | some st => simp [hcu, ih, List.filter_cons]
    | none => simp [hcu, ih, List.filter_cons]

theorem probeBulkFill_res_lookup (cache : StatusDict) :
    ∀ urls v, ((probeBulkFill cache urls).1).lookup v
      = if v ∈ urls ∧ (cache.lookup v).isSome then cache.lookup v else none := by
  intro urls
  induction urls with
  | nil => intro v; simp [probeBulkFill, List.lookup]
  | cons u rest ih =>
    intro v
    unfold probeBulkFill
    cases hcu : cache.lookup u with
    | some st =>
      try dsimp only
      rw [dictSet_lookup]
      by_cases hvu : v = u
      · subst hvu
        simp [hcu]
      · rw [if_neg hvu, ih v]
        by_cases hm : v ∈ rest ∧ (cache.lookup v).isSome
        · rw [if_pos hm, if_pos ⟨List.mem_cons_of_mem _ hm.1, hm.2⟩]
        · rw [if_neg hm, if_neg ?_]
          intro hc
          rcases List.mem_cons.1 hc.1 with h | h
          · exact hvu h
          · exact hm ⟨h, hc.2⟩
    | none =>
      try dsimp only
      rw [ih v]
      by_cases hvu : v = u
      · subst hvu
        rw [if_neg (by simp [hcu]), if_neg (by simp [hcu])]
      · by_cases hm : v ∈ rest ∧ (cache.lookup v).isSome
        · rw [if_pos hm, if_pos ⟨List.mem_cons_of_mem _ hm.1, hm.2⟩]
        · rw [if_neg hm, if_neg ?_]
          intro hc
          rcases List.mem_cons.1 hc.1 with h | h
          · exact hvu h
          · exact hm ⟨h, hc.2⟩

theorem probe_bulk_covers (world : CrawlWorld) (urls : List String) (cache : StatusDict)
    (n : Nat) (v : String) (hv : v ∈ urls) :
    ∃ s, ((probe_link_status_bulk world urls cache n).2.1).lookup v = some s ∧
         ((probe_link_status_bulk world urls cache n).1).lookup v = some s := by
  unfold probe_link_status_bulk
  cases hcv : cache.lookup v with
  | some s =>
    have hvtf : v ∉ (probeBulkFill cache urls).2 := by
      rw [probeBulkFill_tf]
      intro hmem
      have := (List.mem_filter.1 hmem).2
      simp [hcv] at this
    refine ⟨s, probeBulkRun_cache_preserve world _ _ _ _ v s hcv, ?_⟩
    rw [probeBulkRun_res_preserve world _ _ _ _ v hvtf, probeBulkFill_res_lookup]
    rw [if_pos ⟨hv, by simp [hcv]⟩, hcv]
  | none =>
    have hvtf : v ∈ (probeBulkFill cache urls).2 := by
      rw [probeBulkFill_tf]
      exact List.mem_filter.2 ⟨hv, by simp [hcv]⟩
    exact probeBulkRun_covers world _ _ _ _ v hvtf

theorem probe_bulk_keys (world : CrawlWorld) (urls : List String) (cache : StatusDict)
    (n : Nat) (v : String) :
    (((probe_link_status_bulk world urls cache n).1).lookup v).isSome = true ↔ v ∈ urls := by
  constructor
  · intro h
    by_contra hv
    have hvtf : v ∉ (probeBulkFill cache urls).2 := by
      rw [probeBulkFill_tf]
      intro hmem
      exact hv (List.mem_filter.1 hmem).1
    unfold probe_link_status_bulk at h
    rw [probeBulkRun_res_preserve world _ _ _ _ v hvtf, probeBulkFill_res_lookup,
      if_neg (fun hc => hv hc.1)] at h
    simp at h
  · intro hv
    rcases probe_bulk_covers world urls cache n v hv with ⟨s, _, h2⟩
    simp [h2]

theorem probe_bulk_cached_single (world : CrawlWorld) (u : String) (cache : StatusDict)
    (n : Nat) (s : Option Int) (h : cache.lookup u = some s) :
    probe_link_status_bulk world [u] cache n = ([(u, s)], cache, n) := by
  simp [probe_link_status_bulk, probeBulkFill, probeBulkRun, h, dictSet]

/-! ## Characterization helpers for the job runner -/

/-- Whether crawling one target completes without an exception. -/
def crawlIsOk (world : CrawlWorld) (hk : String → String) (cfg : CrawlConfig)
    (d : DomainInput) : Bool :=
  (crawl_domain world hk d cfg).isOk

/-- The `reports_out` entry a completed target contributes. -/
def crawlRepOut (world : CrawlWorld) (hk : String → String) (cfg : CrawlConfig)
    (d : DomainInput) : Option ReportOut :=
  match crawl_domain world hk d cfg with
  | Except.ok rep => some (mkReportOut d rep)
  | Except.error _ => none

/-- The first exception message raised while iterating the targets. -/
def firstCrawlErr (world : CrawlWorld) (hk : String → String) (cfg : CrawlConfig) :
    List DomainInput → Option String
  | [] => none
  | d :: rest =>
    match crawl_domain world hk d cfg with
    | Except.error e => some e
    | Except.ok _ => firstCrawlErr world hk cfg rest

theorem runTargets_eq (world : CrawlWorld) (hk : String → String) (cfg : CrawlConfig) :
    ∀ ds acc, runTargets world hk cfg ds acc =
      match firstCrawlErr world hk cfg ds with
      | none => Except.ok (acc ++ ds.filterMap (crawlRepOut world hk cfg))
      | some e =>
        Except.error (e,
          acc ++ (ds.takeWhile (crawlIsOk world hk cfg)).filterMap (crawlRepOut world hk cfg)) := by
  intro ds
  induction ds with
  | nil => intro acc; simp [runTargets, firstCrawlErr]
  | cons d rest ih =>
    intro acc
    unfold runTargets firstCrawlErr
    cases hc : crawl_domain world hk d cfg with
    | error e =>
      dsimp only
      have hok : crawlIsOk world hk cfg d = false := by simp [crawlIsOk, hc, Except.isOk, Except.toBool]
      simp [List.takeWhile_cons, hok]
    | ok rep =>
      dsimp only
      rw [ih (acc ++ [mkReportOut d rep])]
      have hok : crawlIsOk world hk cfg d = true := by simp [crawlIsOk, hc, Except.isOk, Except.toBool]
      have hrep : crawlRepOut world hk cfg d = some (mkReportOut d rep) := by
        simp [crawlRepOut, hc]
      cases hf : firstCrawlErr world hk cfg rest <;>
        simp [hf, List.takeWhile_cons, hok, hrep, List.filterMap_cons]

theorem crawlLoop_empty (world : CrawlWorld) (hk : String → String) (dom : DomainInput)
    (mp : Int) (fuel : Nat) (st : CrawlState) (h : st.queue = []) :
    crawlLoop world hk dom mp fuel st = Except.ok st := by
  cases fuel with
  | zero => rfl
  | succ n => rw [crawlLoop_succ, h]

theorem enqueueBFS_below_budget (pl : Nat) (mp : Int) (seen : List String) :
    ∀ nus queue, (pl : Int) + queue.length < mp →
      (pl : Int) + (enqueueBFS pl mp seen queue nus).length ≤ mp := by
  intro nus
  induction nus with
  | nil => intro queue h; simpa [enqueueBFS] using le_of_lt h
  | cons nu rest ih =>
    intro queue h
    unfold enqueueBFS
    by_cases hmem : nu ∈ seen ∨ nu ∈ queue
    · rw [if_pos hmem]
      exact ih queue h
    · rw [if_neg hmem]
      by_cases hbud : mp ≤ (pl : Int) + ((queue ++ [nu]).length : Int)
      · rw [if_pos hbud]
        simp only [List.length_append, List.length_cons, List.length_nil]
        push_cast
        omega
      · rw [if_neg hbud]
        refine ih _ ?_
        push_cast at hbud ⊢
        simp only [List.length_append, List.length_cons, List.length_nil] at hbud ⊢
        push_cast at hbud ⊢
        omega

theorem enqueueBFS_at_budget (pl : Nat) (mp : Int) (seen : List String) :
    ∀ nus queue, mp ≤ (pl : Int) + queue.length →
      (enqueueBFS pl mp seen queue nus).length ≤ queue.length + 1 := by
  intro nus
  induction nus with
  | nil => intro queue _; simp [enqueueBFS]
  | cons nu rest ih =>
    intro queue h
    unfold enqueueBFS
    by_cases hmem : nu ∈ seen ∨ nu ∈ queue
    · rw [if_pos hmem]
      exact le_trans (ih queue h) (by omega)
    · rw [if_neg hmem]
      have hbud : mp ≤ (pl : Int) + ((queue ++ [nu]).length : Int) := by
        simp only [List.length_append, List.length_cons, List.length_nil]
        push_cast
        omega
      rw [if_pos hbud]
      simp

theorem firstCrawlErr_none_iff (world : CrawlWorld) (hk : String → String)
    (cfg : CrawlConfig) :
    ∀ ds, firstCrawlErr world hk cfg ds = none ↔ ds.all (crawlIsOk world hk cfg) = true := by
  intro ds
  induction ds with
  | nil => simp [firstCrawlErr]
  | cons d rest ih =>
    unfold firstCrawlErr
    cases hc : crawl_domain world hk d cfg with
    | error e => simp [List.all_cons, crawlIsOk, hc, Except.isOk, Except.toBool]
    | ok rep => simp [List.all_cons, crawlIsOk, hc, Except.isOk, Except.toBool, ih]

theorem takeWhile_all_eq {α : Type} (p : α → Bool) :
    ∀ l : List α, l.all p = true → l.takeWhile p = l := by
  intro l
  induction l with
  | nil => intro _; rfl
  | cons a rest ih =>
    intro h
    simp only [List.all_cons, Bool.and_eq_true] at h
    rw [List.takeWhile_cons, if_pos h.1, ih h.2]

theorem scope_filter_characterization (hk : String → String) (url : String)
    (d : DomainInput) :
    is_url_allowed_for_domain hk url d = true ↔
      (hk url = hk d.domain ∧
       (∀ bp ∈ d.blocked_paths, bp ≠ "" → pyIn bp (urlPath url) = false) ∧
       (d.allowed_paths = [] ∨
        ∃ ap ∈ d.allowed_paths, ap ≠ "" ∧ pyIn ap (urlPath url) = true)) := by
  unfold is_url_allowed_for_domain
  by_cases h1 : hk url = hk d.domain
  · rw [if_neg (fun hne => hne h1)]
    have hblocked : ∀ (hb : ¬ d.blocked_paths.any
        (fun bp => bp ≠ "" && pyIn bp (urlPath url)) = true),
        ∀ bp ∈ d.blocked_paths, bp ≠ "" → pyIn bp (urlPath url) = false := by
      intro hb bp hbp hbpne
      by_contra hc
      refine hb (List.any_eq_true.2 ⟨bp, hbp, ?_⟩)
      cases hpy : pyIn bp (urlPath url) with
      | false => exact absurd hpy hc
      | true => simp [hbpne]
    by_cases hb : d.blocked_paths.any (fun bp => bp ≠ "" && pyIn bp (urlPath url)) = true
    · rw [if_pos hb]
      simp only [Bool.false_eq_true, false_iff]
      rintro ⟨-, hbl, -⟩
      rcases List.any_eq_true.1 hb with ⟨bp, hbp, hbp2⟩
      simp only [Bool.and_eq_true, decide_eq_true_eq] at hbp2
      rw [hbl bp hbp hbp2.1] at hbp2
      exact absurd hbp2.2 (by simp)
    · rw [if_neg hb]
      by_cases ha : d.allowed_paths ≠ []
      · rw [if_pos ha]
        constructor
        · intro hany
          refine ⟨h1, hblocked hb, Or.inr ?_⟩
          rcases List.any_eq_true.1 hany with ⟨ap, hap, hap2⟩
          simp only [Bool.and_eq_true, decide_eq_true_eq] at hap2
          exact ⟨ap, hap, hap2.1, hap2.2⟩
        · rintro ⟨-, -, hall⟩
          rcases hall with hnil | ⟨ap, hap, hapne, hapin⟩
          · exact absurd hnil ha
          · exact List.any_eq_true.2 ⟨ap, hap, by simp [hapne, hapin]⟩
      · rw [if_neg ha]
        push_neg at ha
        constructor
        · intro _
          exact ⟨h1, hblocked hb, Or.inl ha⟩
        · intro _
          rfl
  · rw [if_pos h1]
    simp only [Bool.false_eq_true, false_iff]
    rintro ⟨he, -, -⟩
    exact h1 he

theorem crawl_single_url_failed (world : CrawlWorld) (url : String) (dom : DomainInput)
    (index : Nat) (r : HttpResp) (hr : world.resp url = some r)
    (hfail : fetchOk r.status_code = false) :
    crawl_single_url world url dom index = Except.ok
      { url := url, final_url := if r.final_url ≠ "" then r.final_url else url,
        status := r.status_code, duration_ms := r.duration_ms,
        size_bytes := r.content.length, encoding_guess := r.encoding_guess,
        ok := false, error := some "fetch_failed", extracted_path := none } := by
  simp only [crawl_single_url, hr]
  rw [if_pos (Or.inl (by simp [hfail]))]

theorem crawlLoop_one_failed (world : CrawlWorld) (hk : String → String)
    (dom : DomainInput) (mp : Int) (f : Nat) (seed : String) (res : PageCrawlResult)
    (hres : res.ok = false)
    (hcs : crawl_single_url world seed dom 0 = Except.ok res)
    (hmp : 0 < mp) :
    ∃ st', crawlLoop world hk dom mp (f + 1)
        { pages := [], queue := [seed], seen := [], cache := [], nFetch := 0 }
        = Except.ok st' ∧ st'.pages = [res] ∧ st'.queue = [] := by
  have hcp := crawlHandlePage_failed world hk dom mp [] [] [seed] [] 0 res hres
  refine ⟨crawlHandlePage world hk dom mp [] [] [seed] [] 0 res, ?_,
    by simpa using hcp.2, hcp.1⟩
  rw [crawlLoop_succ]
  dsimp only [List.length_nil]
  rw [if_pos (by simpa using hmp), if_neg (List.not_mem_nil seed)]
  rw [hcs]
  exact crawlLoop_empty world hk dom mp f _ hcp.1

/-! ## The claims -/

/-- C1: for every crawl of a domain, the report produced by `crawl_domain`
contains at most the effective page budget
(`max_pages = domain.max_pages or cfg.limits.max_pages_per_domain`):
`len(pages) ≤ max_pages` holds from any loop state already within budget
(so at every point during the crawl) and in the final report, for every
budget that is a valid (non-negative) page count. -/
theorem C1_page_budget (world : CrawlWorld) (hk : String → String) (dom : DomainInput)
    (cfg : CrawlConfig) (fuel : Nat) (st : CrawlState)
    (hmax : 0 ≤ pyOrInt dom.max_pages cfg.limits.max_pages_per_domain)
    (hst : (st.pages.length : Int) ≤ pyOrInt dom.max_pages cfg.limits.max_pages_per_domain) :
    (match crawlLoop world hk dom
        (pyOrInt dom.max_pages cfg.limits.max_pages_per_domain) fuel st with
     | Except.ok st' =>
       (st'.pages.length : Int) ≤ pyOrInt dom.max_pages cfg.limits.max_pages_per_domain
     | Except.error _ => True) ∧
    (match crawl_domain world hk dom cfg with
     | Except.ok rep =>
       (rep.pages.length : Int) ≤ rep.max_pages_effective ∧
       rep.max_pages_effective = pyOrInt dom.max_pages cfg.limits.max_pages_per_domain
     | Except.error _ => True) := by
  constructor
  · cases hE : crawlLoop world hk dom
        (pyOrInt dom.max_pages cfg.limits.max_pages_per_domain) fuel st with
    | ok st' => exact crawlLoop_pages_le world hk dom _ fuel st st' hst hE
    | error e => trivial
  · cases hE : crawlLoop world hk dom (pyOrInt dom.max_pages cfg.limits.max_pages_per_domain)
        (crawlFuel (pyOrInt dom.max_pages cfg.limits.max_pages_per_domain) (initQueue hk dom))
        { pages := [], queue := initQueue hk dom, seen := [], cache := [], nFetch := 0 } with
    | ok st' =>
      simp only [crawl_domain, hE]
      exact ⟨crawlLoop_pages_le world hk dom _ _ _ st' (by simpa using hmax) hE, trivial⟩
    | error e =>
      simp only [crawl_domain, hE]

/-- Witness for C1 at a concrete three-page crawl (budget 3, site `wC`). -/
theorem C1_page_budget_witness :
    (match crawlLoop wC hk0 domC
        (pyOrInt domC.max_pages ({} : CrawlConfig).limits.max_pages_per_domain) 5
        { pages := [], queue := ["https://e.com/"], seen := [], cache := [], nFetch := 0 } with
     | Except.ok st' =>
       (st'.pages.length : Int) ≤ pyOrInt domC.max_pages ({} : CrawlConfig).limits.max_pages_per_domain
     | Except.error _ => True) ∧
    (match crawl_domain wC hk0 domC {} with
     | Except.ok rep =>
       (rep.pages.length : Int) ≤ rep.max_pages_effective ∧
       rep.max_pages_effective = pyOrInt domC.max_pages ({} : CrawlConfig).limits.max_pages_per_domain
     | Except.error _ => True) :=
  C1_page_budget wC hk0 domC {} 5
    { pages := [], queue := ["https://e.com/"], seen := [], cache := [], nFetch := 0 }
    (by decide) (by decide)

/-- C2: no URL is recorded twice in a crawl report: the `url` fields of
`report.pages` are pairwise distinct, because a URL is added to the seen-set
before being crawled and the seen-set is re-checked at every dequeue
(`crawlLoop_nodup` carries the invariant). -/
theorem C2_no_duplicate_pages (world : CrawlWorld) (hk : String → String)
    (dom : DomainInput) (cfg : CrawlConfig) :
    match crawl_domain world hk dom cfg with
    | Except.ok rep => (rep.pages.map (fun p => p.url)).Nodup
    | Except.error _ => True := by
  cases hE : crawlLoop world hk dom (pyOrInt dom.max_pages cfg.limits.max_pages_per_domain)
      (crawlFuel (pyOrInt dom.max_pages cfg.limits.max_pages_per_domain) (initQueue hk dom))
      { pages := [], queue := initQueue hk dom, seen := [], cache := [], nFetch := 0 } with
  | ok st' =>
    simp only [crawl_domain, hE]
    exact crawlLoop_nodup world hk dom _ _ _ st' (by simp) (by simp) hE
  | error e =>
    simp only [crawl_domain, hE]

/-- C3 counterexample: the budget check of the enqueue loop runs only
*after* `queue.append(nu)`.  In a crawl state with `len(pages) = 2`,
`queue = [b]` and budget 3 — reachable in two loop steps on the concrete
site `wC`, as the second conjunct shows (`pages + queue` reaches 4 > 3) —
the condition `len(pages) + len(queue) >= max_pages` already holds
(2 + 1 ≥ 3), yet the next internal URL `d` is still appended, refuting
"no further internal URL is appended to the queue". -/
theorem C3_counterexample :
    ((3 : Int) ≤ ((2 : Nat) : Int) + ((["https://e.com/b"] : List String).length : Int) ∧
     enqueueBFS 2 3 ["https://e.com/a", "https://e.com/"] ["https://e.com/b"]
         ["https://e.com/d"]
       = ["https://e.com/b", "https://e.com/d"]) ∧
    ((match crawlLoop wC hk0 domC 3 2
        { pages := [], queue := ["https://e.com/"], seen := [], cache := [], nFetch := 0 } with
      | Except.ok st => ((st.pages.length : Int) + (st.queue.length : Int) == 4 : Bool)
      | Except.error _ => false) = true) := by
  refine ⟨⟨by decide, by decide⟩, by decide⟩

/-- C3 (amended): the enqueue loop checks the budget *after* each append, so
from a state strictly below the budget it never pushes
`pages.length + queue.length` above `maxPages`, while from a state already at
or above the budget it appends at most one more URL before breaking; and the
crawl loop terminates exactly when the queue is empty or
`pages.length = maxPages` (given enough fuel and a state within budget). -/
theorem C3_enqueue_budget (pl : Nat) (mp : Int) (seen queue nus : List String)
    (world : CrawlWorld) (hk : String → String) (dom : DomainInput)
    (fuel : Nat) (st : CrawlState)
    (hfuel : st.queue.length
        + MAX_INTERNAL_LINKS_PER_PAGE * (mp - (st.pages.length : Int)).toNat < fuel)
    (hle : (st.pages.length : Int) ≤ mp) :
    ((pl : Int) + queue.length < mp →
      (pl : Int) + (enqueueBFS pl mp seen queue nus).length ≤ mp) ∧
    (mp ≤ (pl : Int) + queue.length →
      (enqueueBFS pl mp seen queue nus).length ≤ queue.length + 1) ∧
    (match crawlLoop world hk dom mp fuel st with
     | Except.ok st' => st'.queue = [] ∨ (st'.pages.length : Int) = mp
     | Except.error _ => True) := by
  refine ⟨fun h => enqueueBFS_below_budget pl mp seen nus queue h,
          fun h => enqueueBFS_at_budget pl mp seen nus queue h, ?_⟩
  cases hE : crawlLoop world hk dom mp fuel st with
  | ok st' =>
    rcases crawlLoop_exit world hk dom mp fuel st st' hfuel hE with h | h
    · exact Or.inl h
    · have h2 := crawlLoop_pages_le world hk dom mp fuel st st' hle hE
      exact Or.inr (by omega)
  | error e => trivial

/-- Witness for C3 (amended) at the concrete site `wC` with budget 3. -/
theorem C3_enqueue_budget_witness :
    (((2 : Nat) : Int) + (["https://e.com/b"] : List String).length < 3 →
      ((2 : Nat) : Int) + (enqueueBFS 2 3 ["https://e.com/a", "https://e.com/"]
          ["https://e.com/b"] ["https://e.com/d"]).length ≤ 3) ∧
    ((3 : Int) ≤ ((2 : Nat) : Int) + (["https://e.com/b"] : List String).length →
      (enqueueBFS 2 3 ["https://e.com/a", "https://e.com/"]
          ["https://e.com/b"] ["https://e.com/d"]).length
        ≤ (["https://e.com/b"] : List String).length + 1) ∧
    (match crawlLoop wC hk0 domC 3 100
        { pages := [], queue := ["https://e.com/"], seen := [], cache := [], nFetch := 0 } with
     | Except.ok st' => st'.queue = [] ∨ (st'.pages.length : Int) = 3
     | Except.error _ => True) :=
  C3_enqueue_budget 2 3 ["https://e.com/a", "https://e.com/"] ["https://e.com/b"]
    ["https://e.com/d"] wC hk0 domC 100
    { pages := [], queue := ["https://e.com/"], seen := [], cache := [], nFetch := 0 }
    (by decide) (by decide)

/-- C4 counterexample: the scope filter matches path rules by *substring*
(`bp in path`), not by prefix.  With `allowedPathPrefixes = ["/blog/"]`, the
URL `https://example.com/x/blog/y` is kept by `is_url_allowed_for_domain`
although its path `/x/blog/y` does not start with `/blog/`, refuting
"keeps only URLs whose path matches at least one allowed prefix" (and hence
"every crawled page … has a path under /blog/"). -/
theorem C4_counterexample :
    is_url_allowed_for_domain (fun _ => "example.com") "https://example.com/x/blog/y"
      { domain := "https://example.com", slug := "example_com",
        start_urls := ["https://example.com/"], allowed_paths := ["/blog/"] } = true
    ∧ pyStartsWith "/blog/" (urlPath "https://example.com/x/blog/y") = false := by
  exact ⟨by decide, by decide⟩

/-- C4 (amended): the scope filter keeps a URL iff its host key matches the
target, no non-empty blocked path occurs as a *substring* of the URL's path,
and (when the allow-list is non-empty) some non-empty allowed path occurs as
a *substring* of the path; consequently every page recorded in a crawl
report (seeds included) passed this filter. -/
theorem C4_scope_filter (hk : String → String) (url : String) (d : DomainInput)
    (world : CrawlWorld) (dom : DomainInput) (cfg : CrawlConfig) :
    (is_url_allowed_for_domain hk url d = true ↔
      (hk url = hk d.domain ∧
       (∀ bp ∈ d.blocked_paths, bp ≠ "" → pyIn bp (urlPath url) = false) ∧
       (d.allowed_paths = [] ∨
        ∃ ap ∈ d.allowed_paths, ap ≠ "" ∧ pyIn ap (urlPath url) = true))) ∧
    (match crawl_domain world hk dom cfg with
     | Except.ok rep => ∀ p ∈ rep.pages, is_url_allowed_for_domain hk p.url dom = true
     | Except.error _ => True) := by
  refine ⟨scope_filter_characterization hk url d, ?_⟩
  cases hE : crawlLoop world hk dom (pyOrInt dom.max_pages cfg.limits.max_pages_per_domain)
      (crawlFuel (pyOrInt dom.max_pages cfg.limits.max_pages_per_domain) (initQueue hk dom))
      { pages := [], queue := initQueue hk dom, seen := [], cache := [], nFetch := 0 } with
  | ok st' =>
    simp only [crawl_domain, hE]
    exact crawlLoop_allowed world hk dom _ _ _ st'
      (fun u hu => initQueue_allowed hk dom u hu) (by simp) hE
  | error e =>
    simp only [crawl_domain, hE]

/-- Witness for C4 (amended) at a concrete URL and the concrete site `wC`. -/
theorem C4_scope_filter_witness :
    (is_url_allowed_for_domain hk0 "https://e.com/a" domC = true ↔
      (hk0 "https://e.com/a" = hk0 domC.domain ∧
       (∀ bp ∈ domC.blocked_paths, bp ≠ "" → pyIn bp (urlPath "https://e.com/a") = false) ∧
       (domC.allowed_paths = [] ∨
        ∃ ap ∈ domC.allowed_paths, ap ≠ "" ∧ pyIn ap (urlPath "https://e.com/a") = true))) ∧
    (match crawl_domain wC hk0 domC {} with
     | Except.ok rep => ∀ p ∈ rep.pages, is_url_allowed_for_domain hk0 p.url domC = true
     | Except.error _ => True) :=
  C4_scope_filter hk0 "https://e.com/a" domC wC domC {}

/-- C5: within one crawl run the HTTP status of a link URL is computed at
most once: a URL already in the shared cache is answered from the cache with
no new fetch (same cache, same fetch counter), the bulk prober's result keys
cover exactly the requested batch, and re-probing a URL of an earlier batch
returns the identical cached status with the cache and fetch counter
unchanged. -/
theorem C5_probe_cache (world : CrawlWorld) (urls : List String) (cache : StatusDict)
    (n : Nat) (u v : String) (s : Option Int) :
    (cache.lookup u = some s →
      probe_link_status_single world u cache n = (Except.ok s, cache, n)) ∧
    ((((probe_link_status_bulk world urls cache n).1).lookup v).isSome = true ↔ v ∈ urls) ∧
    (u ∈ urls →
      ∃ s2, ((probe_link_status_bulk world urls cache n).2.1).lookup u = some s2 ∧
        ((probe_link_status_bulk world urls cache n).1).lookup u = some s2 ∧
        probe_link_status_bulk world [u]
            (probe_link_status_bulk world urls cache n).2.1
            (probe_link_status_bulk world urls cache n).2.2
          = ([(u, s2)],
             (probe_link_status_bulk world urls cache n).2.1,
             (probe_link_status_bulk world urls cache n).2.2)) := by
  refine ⟨fun h => probe_single_cached world u cache n s h,
          probe_bulk_keys world urls cache n v, ?_⟩
  intro hu
  rcases probe_bulk_covers world urls cache n u hu with ⟨s2, hc, hr⟩
  exact ⟨s2, hc, hr, probe_bulk_cached_single world u _ _ s2 hc⟩

/-- Witness for C5 on a concrete two-URL batch against the site `wProbe`,
with `https://c/` already cached. -/
theorem C5_probe_cache_witness :
    (([("https://c/", some 301)] : StatusDict).lookup "https://c/" = some (some 301) →
      probe_link_status_single wProbe "https://c/" [("https://c/", some 301)] 0
        = (Except.ok (some 301), [("https://c/", some 301)], 0)) ∧
    ((((probe_link_status_bulk wProbe ["https://c/", "https://a/"]
          [("https://c/", some 301)] 0).1).lookup "https://a/").isSome = true ↔
      "https://a/" ∈ (["https://c/", "https://a/"] : List String)) ∧
    ("https://c/" ∈ (["https://c/", "https://a/"] : List String) →
      ∃ s2, ((probe_link_status_bulk wProbe ["https://c/", "https://a/"]
            [("https://c/", some 301)] 0).2.1).lookup "https://c/" = some s2 ∧
        ((probe_link_status_bulk wProbe ["https://c/", "https://a/"]
            [("https://c/", some 301)] 0).1).lookup "https://c/" = some s2 ∧
        probe_link_status_bulk wProbe ["https://c/"]
            (probe_link_status_bulk wProbe ["https://c/", "https://a/"]
              [("https://c/", some 301)] 0).2.1
            (probe_link_status_bulk wProbe ["https://c/", "https://a/"]
              [("https://c/", some 301)] 0).2.2
          = ([("https://c/", s2)],
             (probe_link_status_bulk wProbe ["https://c/", "https://a/"]
               [("https://c/", some 301)] 0).2.1,
             (probe_link_status_bulk wProbe ["https://c/", "https://a/"]
               [("https://c/", some 301)] 0).2.2)) :=
  C5_probe_cache wProbe ["https://c/", "https://a/"] [("https://c/", some 301)] 0
    "https://c/" "https://a/" (some 301)

/-- C6 counterexample: a network error that exhausts the fetch client's
retries *raises* (`fetch_httpx` re-raises the last `RequestError`, and
neither `crawl_single_url` nor `crawl_domain` catches it), so the page is
not recorded with `ok=false`/`error="fetch_failed"` — the whole crawl aborts
with an exception and no report is produced, refuting the network-error half
of the claim. -/
theorem C6_counterexample :
    crawl_domain wNet hk0 domC {} = Except.error "https://e.com/" ∧
    (crawl_domain wNet hk0 domC {}).isOk = false := by
  exact ⟨rfl, rfl⟩

/-- C6 (amended): when a page fetch *returns* a non-2xx/3xx status, that
page is recorded with `ok=false`, `error="fetch_failed"` and empty link
lists, and contributes nothing to the frontier: a failed seed yields a
one-page report and the loop terminates (second conjunct: a failed page
enqueues nothing from any state).  A network error that exhausts retries
instead propagates as an exception and aborts the crawl (see the
counterexample). -/
theorem C6_fetch_failed (world : CrawlWorld) (hk : String → String) (dom : DomainInput)
    (cfg : CrawlConfig) (seed : String) (r : HttpResp)
    (pages0 : List PageCrawlResult) (rest : List String) (seen2 : List String)
    (cache0 : StatusDict) (n0 : Nat) (res : PageCrawlResult)
    (hq : initQueue hk dom = [seed])
    (hr : world.resp seed = some r)
    (hfail : fetchOk r.status_code = false)
    (hmax : 0 < pyOrInt dom.max_pages cfg.limits.max_pages_per_domain)
    (hres : res.ok = false) :
    (match crawl_domain world hk dom cfg with
     | Except.ok rep =>
       rep.pages.map (fun p => (p.url, p.ok, p.error, p.internal_links, p.external_links))
         = [(seed, false, some "fetch_failed", [], [])]
     | Except.error _ => False) ∧
    (crawlHandlePage world hk dom (pyOrInt dom.max_pages cfg.limits.max_pages_per_domain)
        pages0 rest seen2 cache0 n0 res).queue = rest := by
  constructor
  · simp only [crawl_domain]
    rw [hq]
    obtain ⟨f, hf⟩ : ∃ f, crawlFuel (pyOrInt dom.max_pages cfg.limits.max_pages_per_domain)
        [seed] = f + 1 :=
      ⟨([seed] : List String).length + MAX_INTERNAL_LINKS_PER_PAGE *
        (pyOrInt dom.max_pages cfg.limits.max_pages_per_domain).toNat, rfl⟩
    rw [hf]
    have hcs := crawl_single_url_failed world seed dom 0 r hr hfail
    obtain ⟨st', hE, hpages, -⟩ :=
      crawlLoop_one_failed world hk dom
        (pyOrInt dom.max_pages cfg.limits.max_pages_per_domain) f seed _ (by rfl) hcs hmax
    rw [hE]
    dsimp only
    rw [hpages]
    simp
  · exact (crawlHandlePage_failed world hk dom
      (pyOrInt dom.max_pages cfg.limits.max_pages_per_domain)
      pages0 rest seen2 cache0 n0 res hres).1

/-- Witness for C6 (amended): the seed fetch returns HTTP 500 on site `w500`. -/
theorem C6_fetch_failed_witness :
    (match crawl_domain w500 hk0 domC {} with
     | Except.ok rep =>
       rep.pages.map (fun p => (p.url, p.ok, p.error, p.internal_links, p.external_links))
         = [("https://e.com/", false, some "fetch_failed", [], [])]
     | Except.error _ => False) ∧
    (crawlHandlePage w500 hk0 domC (pyOrInt domC.max_pages ({} : CrawlConfig).limits.max_pages_per_domain)
        [] [] ["https://e.com/"] [] 0
        { url := "https://e.com/", final_url := "https://e.com/", status := some 500,
          duration_ms := 0, size_bytes := 1, encoding_guess := none, ok := false,
          error := some "fetch_failed", extracted_path := none }).queue = [] :=
  C6_fetch_failed w500 hk0 domC {} "https://e.com/"
    { status_code := some 500, final_url := "https://e.com/", content := [1] }
    [] [] ["https://e.com/"] [] 0
    { url := "https://e.com/", final_url := "https://e.com/", status := some 500,
      duration_ms := 0, size_bytes := 1, encoding_guess := none, ok := false,
      error := some "fetch_failed", extracted_path := none }
    (by decide) (by rfl) (by decide) (by decide) (by rfl)

/-- C7 counterexample: an absent meta-robots directive yields
`index_status = None` (serialized as `null`), not the string `"unknown"`
claimed by the spec (the source comments themselves document
`"index" / "noindex" / None`). -/
theorem C7_counterexample :
    deriveIndexStatus none = none ∧ ¬ deriveIndexStatus none = some "unknown" := by
  exact ⟨rfl, by simp [deriveIndexStatus]⟩

/-- C7 (amended): a non-blank robots string containing `"noindex"`
case-insensitively gives `"noindex"`, any other non-blank robots string
gives `"index"`, a blank or absent directive gives `None` (not `"unknown"`);
and a `noindex` page still has its internal links expanded by BFS (on site
`wNoidx` the `noindex` seed's link is crawled as the second page). -/
theorem C7_index_status (robots : String) (h1 : pyStrip robots ≠ "") :
    (pyIn "noindex" (pyLower robots) = true →
      deriveIndexStatus (some robots) = some "noindex") ∧
    (pyIn "noindex" (pyLower robots) = false →
      deriveIndexStatus (some robots) = some "index") ∧
    (∀ r2 : String, pyStrip r2 = "" → deriveIndexStatus (some r2) = none) ∧
    deriveIndexStatus none = none ∧
    ((match crawl_domain wNoidx hk0 domC {} with
      | Except.ok rep =>
        (rep.pages.map (fun p => p.index_status) == [some "noindex", none]) &&
        (rep.pages.map (fun p => p.url) == ["https://e.com/", "https://e.com/a"])
      | Except.error _ => false) = true) := by
  refine ⟨?_, ?_, ?_, rfl, by decide⟩
  · intro h
    simp [deriveIndexStatus, h1, h]
  · intro h
    simp [deriveIndexStatus, h1, h]
  · intro r2 h
    simp [deriveIndexStatus, h]

/-- Witness for C7 (amended) at the concrete directive `"NoIndex, follow"`. -/
theorem C7_index_status_witness :
    (pyIn "noindex" (pyLower "NoIndex, follow") = true →
      deriveIndexStatus (some "NoIndex, follow") = some "noindex") ∧
    (pyIn "noindex" (pyLower "NoIndex, follow") = false →
      deriveIndexStatus (some "NoIndex, follow") = some "index") ∧
    (∀ r2 : String, pyStrip r2 = "" → deriveIndexStatus (some r2) = none) ∧
    deriveIndexStatus none = none ∧
    ((match crawl_domain wNoidx hk0 domC {} with
      | Except.ok rep =>
        (rep.pages.map (fun p => p.index_status) == [some "noindex", none]) &&
        (rep.pages.map (fun p => p.url) == ["https://e.com/", "https://e.com/a"])
      | Except.error _ => false) = true) :=
  C7_index_status "NoIndex, follow" (by decide)

/-- C8: the job runner's final persisted status is `done` exactly when every
target's crawl completed (never both `done` and `failed`); on an exception it
is `failed` with the human-readable message `f"Error: {e}"` for the first
escaping exception; and in both cases the persisted reports are exactly
those of the targets completed before the first failure. -/
theorem C8_job_lifecycle (world : CrawlWorld) (hk : String → String)
    (cfg : CrawlConfig) (job_id : String) (domains : List DomainInput) :
    (run_crawl_job_sync world hk cfg job_id domains).job_id = job_id ∧
    (run_crawl_job_sync world hk cfg job_id domains).status
      = (if domains.all (crawlIsOk world hk cfg) then "done" else "failed") ∧
    (run_crawl_job_sync world hk cfg job_id domains).reports
      = (domains.takeWhile (crawlIsOk world hk cfg)).filterMap (crawlRepOut world hk cfg) ∧
    (run_crawl_job_sync world hk cfg job_id domains).message
      = (match firstCrawlErr world hk cfg domains with
         | none => "Completed crawl for " ++ toString domains.length ++ " domain(s)"
         | some e => "Error: " ++ e) ∧
    ¬ ((run_crawl_job_sync world hk cfg job_id domains).status = "done" ∧
       (run_crawl_job_sync world hk cfg job_id domains).status = "failed") := by
  have hmain : run_crawl_job_sync world hk cfg job_id domains =
      (match firstCrawlErr world hk cfg domains with
       | none =>
         { job_id := job_id, status := "done",
           message := "Completed crawl for " ++ toString domains.length ++ " domain(s)",
           reports := domains.filterMap (crawlRepOut world hk cfg) }
       | some e =>
         { job_id := job_id, status := "failed", message := "Error: " ++ e,
           reports := (domains.takeWhile (crawlIsOk world hk cfg)).filterMap
             (crawlRepOut world hk cfg) }) := by
    unfold run_crawl_job_sync
    rw [runTargets_eq world hk cfg domains []]
    cases hf : firstCrawlErr world hk cfg domains <;> simp
  cases hf : firstCrawlErr world hk cfg domains with
  | none =>
    have hall : domains.all (crawlIsOk world hk cfg) = true :=
      (firstCrawlErr_none_iff world hk cfg domains).1 hf
    rw [hmain, hf]
    dsimp only
    refine ⟨rfl, by rw [if_pos hall], ?_, rfl, by simp⟩
    rw [takeWhile_all_eq _ domains hall]
  | some e =>
    have hall : ¬ domains.all (crawlIsOk world hk cfg) = true := by
      intro hall
      rw [(firstCrawlErr_none_iff world hk cfg domains).2 hall] at hf
      cases hf
    rw [hmain, hf]
    dsimp only
    refine ⟨rfl, by rw [if_neg hall], rfl, rfl, by simp⟩

/-- C9 counterexample: a status file that parses as JSON but cannot be read
back as a valid `CrawlJob` (its page entry `{}` lacks the required
`PageResult` fields) makes `get_crawl_status` return the
`job_id="invalid"` / `status="error"` object — not a job with status
`"idle"` as the claim states (though it is returned, not raised). -/
theorem C9_counterexample :
    get_crawl_status (FileState.parsed badStatusJson) = invalidStatus ∧
    invalidStatus.status = "error" ∧ ¬ invalidStatus.status = "idle" := by
  exact ⟨rfl, rfl, by decide⟩

/-- C9 (amended): the status reader never raises: a missing file, a file
`json.load` cannot parse, and a JSON-falsy document are all reported as the
`idle` job; a JSON document that fails `CrawlJob` validation is reported as
the `job_id="invalid"` / `status="error"` object; a valid document is
returned as parsed. -/
theorem C9_status_reader (j : PyVal) :
    get_crawl_status FileState.missing = idleStatus ∧
    get_crawl_status FileState.unparseable = idleStatus ∧
    (pyTruthy j = false → get_crawl_status (FileState.parsed j) = idleStatus) ∧
    (∀ e, pyTruthy j = true → buildStatus j = Except.error e →
      get_crawl_status (FileState.parsed j) = invalidStatus) ∧
    (∀ s, pyTruthy j = true → buildStatus j = Except.ok s →
      get_crawl_status (FileState.parsed j) = s) := by
  refine ⟨rfl, rfl, ?_, ?_, ?_⟩
  · intro h
    simp [get_crawl_status, read_status_raw, h]
  · intro e h hb
    simp [get_crawl_status, read_status_raw, h, hb]
  · intro s h hb
    simp [get_crawl_status, read_status_raw, h, hb]

/-- Witness for C9 at the concrete invalid status file `badStatusJson`. -/
theorem C9_status_reader_witness :
    get_crawl_status FileState.missing = idleStatus ∧
    get_crawl_status FileState.unparseable = idleStatus ∧
    (pyTruthy badStatusJson = false →
      get_crawl_status (FileState.parsed badStatusJson) = idleStatus) ∧
    (∀ e, pyTruthy badStatusJson = true → buildStatus badStatusJson = Except.error e →
      get_crawl_status (FileState.parsed badStatusJson) = invalidStatus) ∧
    (∀ s, pyTruthy badStatusJson = true → buildStatus badStatusJson = Except.ok s →
      get_crawl_status (FileState.parsed badStatusJson) = s) :=
  C9_status_reader badStatusJson

/-- C10: a fetch that returns `ok=true` (HTTP status in `[200,400)`) but an
*empty body* is still recorded as a failed page: `crawl_single_url` requires
a non-empty response body for success (`if not ok or not content`), so the
page gets `ok=false`, `error="fetch_failed"`, no extracted document and
empty link lists. -/
theorem C10_empty_body_failed (world : CrawlWorld) (url : String) (dom : DomainInput)
    (index : Nat) (r : HttpResp) (hr : world.resp url = some r)
    (h200 : 200 ≤ r.status_code.getD 0) (h400 : r.status_code.getD 0 < 400)
    (hempty : r.content = []) :
    fetchOk r.status_code = true ∧
    (match crawl_single_url world url dom index with
     | Except.ok res => res.ok = false ∧ res.error = some "fetch_failed" ∧
         res.extracted_path = none ∧ res.internal_links = [] ∧ res.external_links = []
     | Except.error _ => False) := by
  refine ⟨by simp [fetchOk, h200, h400], ?_⟩
  simp only [crawl_single_url, hr]
  rw [if_pos (Or.inr hempty)]
  simp

/-- Witness for C10: HTTP 204 with an empty body on site `w204`. -/
theorem C10_empty_body_failed_witness :
    fetchOk (HttpResp.status_code
      { status_code := some 204, final_url := "https://e.com/", content := [] }) = true ∧
    (match crawl_single_url w204 "https://e.com/" domC 0 with
     | Except.ok res => res.ok = false ∧ res.error = some "fetch_failed" ∧
         res.extracted_path = none ∧ res.internal_links = [] ∧ res.external_links = []
     | Except.error _ => False) :=
  C10_empty_body_failed w204 "https://e.com/" domC 0
    { status_code := some 204, final_url := "https://e.com/", content := [] }
    (by rfl) (by decide) (by decide) (by rfl)
